import Mathlib

/-!
Verification of the call-center analytics aggregation and prompting pipeline
(repository prism-base).  The TypeScript sources are shallowly embedded:

* JavaScript numbers are modelled by `JsNum`, a sum of NaN, the two
  infinities and exact rationals.  Rationals are represented by the
  executable type `Q` (an integer numerator with a positive natural
  denominator, not normalised); every arithmetic operation of the model
  reduces inside the kernel.
* JavaScript strings are modelled as `Str := List Char`.
* The union-typed duration fields (`number | string | {minutes, seconds}`)
  are modelled by `DurVal`, sentiment fields by `SentVal`.
* Each API route keeps its own near-duplicate helpers, exactly as in the
  source: namespace `V1` embeds the route of `part_003` (stride sampling,
  rate limiter, request queue), namespace `V2` the route of `part_002`
  (random sampling, `prepareAccurateData`/`prepareSmartData`), namespace
  `A` the analysis route of `part_005` (`preprocessCallData`, relevance
  scoring, context assembly), and namespace `Dash` the dashboard duration
  parser of `part_008`.
-/

/-! ## Exact rational numbers with kernel-computable arithmetic -/

/-- An exact rational: integer numerator over a positive natural
denominator.  Representations are not normalised; all operations used by
the embedded code produce denominator `1` whenever the JavaScript value is
an integer, which keeps structural equality adequate at every comparison
the claims perform. -/
structure Q where
  num : Int
  den : Nat
  den_pos : 0 < den

instance : DecidableEq Q := fun x y =>
  decidable_of_iff (x.num = y.num ∧ x.den = y.den) (by cases x; cases y; simp)

def Q.ofInt (n : Int) : Q := ⟨n, 1, Nat.one_pos⟩

def Q.ofNat (n : Nat) : Q := ⟨(n : Int), 1, Nat.one_pos⟩

def Q.add (x y : Q) : Q :=
  ⟨x.num * (y.den : Int) + y.num * (x.den : Int), x.den * y.den,
    Nat.mul_pos x.den_pos y.den_pos⟩

def Q.sub (x y : Q) : Q :=
  ⟨x.num * (y.den : Int) - y.num * (x.den : Int), x.den * y.den,
    Nat.mul_pos x.den_pos y.den_pos⟩

def Q.mul (x y : Q) : Q :=
  ⟨x.num * y.num, x.den * y.den, Nat.mul_pos x.den_pos y.den_pos⟩

/-- Division of exact rationals; the divisor is known to be nonzero at
every call site (the embedded code tests for zero first), the zero-divisor
branch is dead code returning `0`. -/
def Q.div (x y : Q) : Q :=
  if h : 0 < y.num then
    ⟨x.num * (y.den : Int), x.den * y.num.toNat,
      Nat.mul_pos x.den_pos (by omega)⟩
  else if h2 : y.num < 0 then
    ⟨-(x.num * (y.den : Int)), x.den * (-y.num).toNat,
      Nat.mul_pos x.den_pos (by omega)⟩
  else Q.ofNat 0

/-- Strict order, by cross multiplication (denominators are positive). -/
def Q.ltB (x y : Q) : Bool := x.num * (y.den : Int) < y.num * (x.den : Int)

def Q.leB (x y : Q) : Bool := x.num * (y.den : Int) ≤ y.num * (x.den : Int)

def Q.isZero (x : Q) : Bool := x.num = 0

def Q.Nonneg (x : Q) : Prop := 0 ≤ x.num

instance (x : Q) : Decidable x.Nonneg := by unfold Q.Nonneg; infer_instance

/-- `Math.round`: round half toward positive infinity,
`⌊x + 1/2⌋ = ⌊(2 num + den) / (2 den)⌋`. -/
def Q.roundI (x : Q) : Int := Int.fdiv (2 * x.num + (x.den : Int)) (2 * (x.den : Int))

/-- Truncation toward zero, as used by the JavaScript `%` operator. -/
def Q.truncI (x : Q) : Int := Int.tdiv x.num (x.den : Int)

/-! ## JavaScript numbers -/

/-- A JavaScript number: NaN, one of the infinities, or an exact value.
(The embedded code never relies on floating-point rounding error, so exact
rationals are an adequate model of the finite doubles it produces.) -/
inductive JsNum where
  | nan : JsNum
  | inf : JsNum
  | ninf : JsNum
  | val (q : Q) : JsNum
deriving DecidableEq

def jn (n : Nat) : JsNum := JsNum.val (Q.ofNat n)

def jz (n : Int) : JsNum := JsNum.val (Q.ofInt n)

/-- JavaScript addition. -/
def jadd : JsNum → JsNum → JsNum
  | .nan, _ => .nan
  | _, .nan => .nan
  | .inf, .ninf => .nan
  | .ninf, .inf => .nan
  | .inf, _ => .inf
  | _, .inf => .inf
  | .ninf, _ => .ninf
  | _, .ninf => .ninf
  | .val a, .val b => .val (a.add b)

/-- JavaScript subtraction. -/
def jsub : JsNum → JsNum → JsNum
  | .nan, _ => .nan
  | _, .nan => .nan
  | .inf, .inf => .nan
  | .ninf, .ninf => .nan
  | .inf, _ => .inf
  | .ninf, _ => .ninf
  | _, .inf => .ninf
  | _, .ninf => .inf
  | .val a, .val b => .val (a.sub b)

/-- JavaScript multiplication (`Infinity * 0 = NaN`). -/
def jmul : JsNum → JsNum → JsNum
  | .nan, _ => .nan
  | _, .nan => .nan
  | .inf, .inf => .inf
  | .inf, .ninf => .ninf
  | .ninf, .inf => .ninf
  | .ninf, .ninf => .inf
  | .inf, .val b => if 0 < b.num then .inf else if b.num < 0 then .ninf else .nan
  | .val a, .inf => if 0 < a.num then .inf else if a.num < 0 then .ninf else .nan
  | .ninf, .val b => if 0 < b.num then .ninf else if b.num < 0 then .inf else .nan
  | .val a, .ninf => if 0 < a.num then .ninf else if a.num < 0 then .inf else .nan
  | .val a, .val b => .val (a.mul b)

/-- JavaScript division (`0/0 = NaN`, `x/0 = ±Infinity` for `x ≠ 0`). -/
def jdiv : JsNum → JsNum → JsNum
  | .nan, _ => .nan
  | _, .nan => .nan
  | .inf, .inf => .nan
  | .inf, .ninf => .nan
  | .ninf, .inf => .nan
  | .ninf, .ninf => .nan
  | .inf, .val b => if 0 ≤ b.num then .inf else .ninf
  | .ninf, .val b => if 0 ≤ b.num then .ninf else .inf
  | .val _, .inf => .val (Q.ofNat 0)
  | .val _, .ninf => .val (Q.ofNat 0)
  | .val a, .val b =>
    if b.isZero then
      if a.isZero then .nan else if 0 < a.num then .inf else .ninf
    else .val (a.div b)

/-- JavaScript remainder `%` (truncated division; `x % 0 = NaN`). -/
def jmod : JsNum → JsNum → JsNum
  | .nan, _ => .nan
  | _, .nan => .nan
  | .inf, _ => .nan
  | .ninf, _ => .nan
  | .val a, .inf => .val a
  | .val a, .ninf => .val a
  | .val a, .val b =>
    if b.isZero then .nan
    else .val (a.sub (b.mul (Q.ofInt ((a.div b).truncI))))

/-- `Math.round` lifted to JavaScript numbers. -/
def jsRound : JsNum → JsNum
  | .nan => .nan
  | .inf => .inf
  | .ninf => .ninf
  | .val a => .val (Q.ofInt a.roundI)

/-- JavaScript `<` (any comparison with NaN is false). -/
def jlt : JsNum → JsNum → Bool
  | .nan, _ => false
  | _, .nan => false
  | .inf, _ => false
  | _, .inf => true
  | .ninf, .ninf => false
  | .ninf, _ => true
  | _, .ninf => false
  | .val a, .val b => a.ltB b

/-- A finite (neither NaN nor infinite) JavaScript number. -/
def JsNum.isReal : JsNum → Bool
  | .val _ => true
  | _ => false

/-! ## Strings and generic helpers -/

/-- JavaScript strings are modelled as lists of characters. -/
abbrev Str := List Char

def toLowerStr (s : Str) : Str := s.map Char.toLower

/-- Split a string at every character satisfying `p`, keeping empty
components (the JavaScript callers filter by length afterwards, which
makes this equivalent to splitting on runs). -/
def splitPred (p : Char → Bool) : Str → List Str
  | [] => [[]]
  | c :: rest =>
    if p c then [] :: splitPred p rest
    else match splitPred p rest with
      | [] => [[c]]
      | t :: ts => (c :: t) :: ts

def splitWs (s : Str) : List Str := splitPred Char.isWhitespace s

def trimStr (s : Str) : Str :=
  ((s.dropWhile Char.isWhitespace).reverse.dropWhile Char.isWhitespace).reverse

/-- JavaScript `String.prototype.includes` (every string contains `""`). -/
def containsSubstr (s pat : Str) : Bool :=
  pat.isPrefixOf s ||
    match s with
    | [] => false
    | _ :: rest => containsSubstr rest pat

/-- Number of non-overlapping, leftmost-first occurrences of a nonempty
pattern, as counted by `str.match(new RegExp(word, "gi"))` on lowercased
inputs whose pattern has no regex metacharacters.  The fuel argument keeps
the recursion structural (hence kernel-computable); any fuel at least the
length of the scanned string is enough, see `countOccGo_fuel`. -/
def countOccGo (pat : Str) : Nat → Str → Nat
  | 0, _ => 0
  | _, [] => 0
  | fuel + 1, c :: rest =>
    if pat.isPrefixOf (c :: rest) then
      1 + countOccGo pat fuel (rest.drop (pat.length - 1))
    else countOccGo pat fuel rest

/-- Occurrence count; the empty pattern matches at every position plus the
end, as the JavaScript global regex does. -/
def countOcc (pat s : Str) : Nat :=
  if pat = [] then s.length + 1 else countOccGo pat s.length s

def isWordChar (c : Char) : Bool := c.isAlphanum || c = '_'

/-- Whether `w` occurs in `s` delimited by word boundaries, i.e. the test
performed by a `\b(w)\b` regex with the `i` flag; both sides are compared
lowercased. -/
def wordOccursAux (w : Str) (prev : Option Char) : Str → Bool
  | [] => false
  | c :: rest =>
    (w.isPrefixOf (c :: rest)
      && (match prev with | none => true | some p => !isWordChar p)
      && (match (c :: rest).drop w.length with
          | [] => true
          | c2 :: _ => !isWordChar c2))
    || wordOccursAux w (some c) rest

def wordOccursCI (w s : Str) : Bool :=
  wordOccursAux (toLowerStr w) none (toLowerStr s)

/-- Stable descending sort by a natural-number key: the JavaScript
`sort((a, b) => key(b) - key(a))`, which is stable per the ECMAScript
specification. -/
def insertDescBy (key : α → Nat) (x : α) : List α → List α
  | [] => [x]
  | y :: ys => if key y ≤ key x then x :: y :: ys else y :: insertDescBy key x ys

def sortDescBy (key : α → Nat) (l : List α) : List α :=
  l.foldr (insertDescBy key) []

/-- Lexicographic comparison of strings by character code, the default
JavaScript `sort()` order. -/
def strLt : Str → Str → Bool
  | [], [] => false
  | [], _ :: _ => true
  | _ :: _, [] => false
  | c :: s, d :: t => c.val < d.val || (c.val = d.val && strLt s t)

/-- Stable ascending sort with the default JavaScript string order. -/
def insertAscStr (x : Str) : List Str → List Str
  | [] => [x]
  | y :: ys => if strLt y x then y :: insertAscStr x ys else x :: y :: ys

def sortStrAsc (l : List Str) : List Str := l.foldr insertAscStr []

/-- `acc[key] = (acc[key] || 0) + 1` on a JavaScript object, modelled as an
association list in insertion order. -/
def bumpCount [DecidableEq κ] (k : κ) : List (κ × Nat) → List (κ × Nat)
  | [] => [(k, 1)]
  | (k', c) :: rest =>
    if k = k' then (k', c + 1) :: rest else (k', c) :: bumpCount k rest

def countBy [DecidableEq κ] (f : α → κ) (l : List α) : List (κ × Nat) :=
  l.foldl (fun acc x => bumpCount (f x) acc) []

/-- `if (!acc[k]) acc[k] = init; mutate acc[k]` on a JavaScript object. -/
def upsert [DecidableEq κ] (k : κ) (f : β → β) (init : β) :
    List (κ × β) → List (κ × β)
  | [] => [(k, f init)]
  | (k', v) :: rest =>
    if k = k' then (k', f v) :: rest else (k', v) :: upsert k f init rest

/-- `assoc[k] || 0` for count maps. -/
def lookupCount [DecidableEq κ] (l : List (κ × Nat)) (k : κ) : Nat :=
  (((l.find? fun e => e.1 = k).map fun e => e.2).getD 0)

/-- `x || dflt` for nullable strings (the empty string is falsy). -/
def jsOrElse (v : Option Str) (dflt : Str) : Str :=
  match v with
  | none => dflt
  | some s => if s = [] then dflt else s

/-- Truthiness of a nullable string. -/
def jsTruthyOptStr (v : Option Str) : Bool :=
  match v with
  | none => false
  | some s => !(s = [])

def natToStr (n : Nat) : Str := Nat.toDigits 10 n

def intToStr (n : Int) : Str :=
  if n < 0 then '-' :: natToStr (-n).toNat else natToStr n.toNat

/-- Grouping helper for `toLocaleString`: insert a comma after every three
characters of the reversed digit list. -/
def groupDigitsGo : List Char → List Char
  | [] => []
  | a :: [] => [a]
  | a :: b :: [] => [a, b]
  | a :: b :: c :: [] => [a, b, c]
  | a :: b :: c :: rest => a :: b :: c :: ',' :: groupDigitsGo rest

/-- `Number.prototype.toLocaleString()` with en-US grouping: digits in
groups of three separated by commas. -/
def toLocale (n : Nat) : Str := (groupDigitsGo (natToStr n).reverse).reverse

/-- String interpolation `${x}` of a JavaScript number.  All numbers the
embedded code interpolates directly are integers (counts or `Math.round`
results); the non-integral fallback renders the numerator alone and is
unreachable in the modelled call sites. -/
def jsNumToStr : JsNum → Str
  | .nan => "NaN".toList
  | .inf => "Infinity".toList
  | .ninf => "-Infinity".toList
  | .val q => if q.den = 1 then intToStr q.num else intToStr q.num

/-- `x.toFixed(d)` for the finite case: round `x * 10^d` half away from
the floor and print with `d` decimals.  (`NaN.toFixed` is `"NaN"`.) -/
def formatFixed (d : Nat) : JsNum → Str
  | .nan => "NaN".toList
  | .inf => "Infinity".toList
  | .ninf => "-Infinity".toList
  | .val q =>
    let m := (q.mul (Q.ofNat (10 ^ d))).roundI
    let neg := m < 0
    let a := m.natAbs
    let ip := a / 10 ^ d
    let fp := a % 10 ^ d
    let fpDigits := natToStr fp
    let fpPadded := List.replicate (d - fpDigits.length) '0' ++ fpDigits
    (if neg then ['-'] else []) ++ natToStr ip ++
      (if d = 0 then [] else '.' :: fpPadded)

/-- Token estimation shared by the chat routes:
`Math.ceil(text.length / 4)`. -/
def estimateTokens (s : Str) : Nat := (s.length + 3) / 4

/-! ## Union-typed record fields -/

/-- A raw duration-like value as persisted: a number, a JSON string, an
object with optional `minutes`/`seconds` fields (absent field =
`undefined`), or null. -/
inductive DurVal where
  | null : DurVal
  | num (x : JsNum) : DurVal
  | str (s : Str) : DurVal
  | obj (minutes : Option JsNum) (seconds : Option JsNum) : DurVal
deriving DecidableEq

/-- JavaScript truthiness of a duration-like value (`0`, `NaN`, `""` and
`null` are falsy; every object is truthy). -/
def jsTruthyDur : DurVal → Bool
  | .null => false
  | .num .nan => false
  | .num (.val q) => !(q.num = 0)
  | .num _ => true
  | .str s => !(s = [])
  | .obj _ _ => true

/-- A sentiment-analysis entry; only its `sentiment` field is ever read by
the embedded code. -/
structure SentEntry where
  sentiment : Option Str
deriving DecidableEq

/-- A raw sentiment-analysis value: null, an array of entries, a plain
string, or an object with an optional `sentiment` field. -/
inductive SentVal where
  | null : SentVal
  | arr (entries : List SentEntry) : SentVal
  | str (s : Str) : SentVal
  | obj (sentiment : Option Str) : SentVal
deriving DecidableEq

def jsTruthySent : SentVal → Bool
  | .null => false
  | .str s => !(s = [])
  | _ => true

def unknownStr : Str := "Unknown".toList

/-! ## Call records -/

/-- A call record, with the fields consumed by the embedded pipeline. -/
structure CallRecord where
  id : Str
  agent_username : Option Str
  queue_name : Option Str
  call_duration : DurVal
  disposition_title : Option Str
  sentiment_analysis : SentVal
  primary_category : Option Str
  initiation_timestamp : Option Str
  total_hold_time : DurVal
  transcript_text : Option Str
  call_summary : Option Str
deriving DecidableEq

/-- `records[i]` with `i` in range never needs this default; it only
makes the generic sampling helpers total. -/
instance : Inhabited CallRecord :=
  ⟨⟨[], none, none, .null, none, .null, none, none, .null, none, none⟩⟩

/-- `records.length > 0 ? {earliest: ...sort()[0], latest:
...sort().reverse()[0]} : null` over `initiation_timestamp` values
(`filter(Boolean)` drops null and empty strings). -/
def dateRangeOf (records : List CallRecord) :
    Option (Option Str × Option Str) :=
  if records.length = 0 then none
  else
    let ts := ((records.map fun r => r.initiation_timestamp).filterMap id).filter
      fun s => !(s = [])
    let sorted := sortStrAsc ts
    some (sorted.head?, sorted.getLast?)

/-! ## Models of the JavaScript built-ins `parseFloat` and `JSON.parse`
(on the flat inputs the repository feeds them) -/

def digitVal (c : Char) : Option Nat :=
  if c.isDigit then some (c.toNat - 48) else none

def takeDigits : Str → (List Nat × Str)
  | [] => ([], [])
  | c :: rest =>
    match digitVal c with
    | some d => let p := takeDigits rest; (d :: p.1, p.2)
    | none => ([], c :: rest)

def digitsToNat (ds : List Nat) : Nat := ds.foldl (fun a d => a * 10 + d) 0

/-- Model of `parseFloat`: skip whitespace, optional sign, decimal digits
with an optional fraction; `none` stands for NaN.  (The exponent form
never occurs in the persisted data.) -/
def parseFloat (s : Str) : Option Q :=
  let s1 := s.dropWhile Char.isWhitespace
  let sgn : Bool × Str :=
    match s1 with
    | c :: rest =>
      if c = '-' then (true, rest)
      else if c = '+' then (false, rest) else (false, c :: rest)
    | [] => (false, [])
  let ipp := takeDigits sgn.2
  let fpp : List Nat × Str :=
    match ipp.2 with
    | c :: rest => if c = '.' then takeDigits rest else ([], ipp.2)
    | [] => ([], [])
  if ipp.1 = [] ∧ fpp.1 = [] then none
  else
    let mag : Q :=
      ⟨(digitsToNat ipp.1) * 10 ^ fpp.1.length + digitsToNat fpp.1,
        10 ^ fpp.1.length, Nat.pos_pow_of_pos _ (by omega)⟩
    some (if sgn.1 then ⟨-mag.num, mag.den, mag.den_pos⟩ else mag)

def lbrace : Char := Char.ofNat 123

def rbrace : Char := Char.ofNat 125

/-- Parse a JSON string literal body after the opening quote (no escape
sequences, which the persisted duration objects never contain). -/
def parseJsonStr : Str → Option (Str × Str)
  | [] => none
  | c :: rest =>
    if c = '"' then some ([], rest)
    else
      match parseJsonStr rest with
      | some (t, r) => some (c :: t, r)
      | none => none

/-- Parse a JSON number (optional minus, digits, optional fraction). -/
def parseJsonNum (s : Str) : Option (Q × Str) :=
  let sgn : Bool × Str :=
    match s with
    | c :: rest => if c = '-' then (true, rest) else (false, c :: rest)
    | [] => (false, [])
  let ipp := takeDigits sgn.2
  if ipp.1 = [] then none
  else
    match ipp.2 with
    | c :: rest =>
      if c = '.' then
        let fpp := takeDigits rest
        if fpp.1 = [] then none
        else
          let mag : Q :=
            ⟨(digitsToNat ipp.1) * 10 ^ fpp.1.length + digitsToNat fpp.1,
              10 ^ fpp.1.length, Nat.pos_pow_of_pos _ (by omega)⟩
          some (if sgn.1 then ⟨-mag.num, mag.den, mag.den_pos⟩ else mag, fpp.2)
      else some (if sgn.1 then Q.ofInt (-(digitsToNat ipp.1 : Int))
                 else Q.ofNat (digitsToNat ipp.1), ipp.2)
    | [] => some (if sgn.1 then Q.ofInt (-(digitsToNat ipp.1 : Int))
                  else Q.ofNat (digitsToNat ipp.1), [])

/-- Parse the members of a flat JSON object with numeric values,
collecting the `minutes` and `seconds` fields. -/
def parseJsonMembers :
    Nat → Str → Option JsNum → Option JsNum → Option DurVal
  | 0, _, _, _ => none
  | fuel + 1, s, mins, secs =>
    let s1 := s.dropWhile Char.isWhitespace
    match s1 with
    | c :: rest =>
      if c = '"' then
        match parseJsonStr rest with
        | none => none
        | some (key, r1) =>
          match r1.dropWhile Char.isWhitespace with
          | c2 :: r2 =>
            if c2 = ':' then
              match parseJsonNum (r2.dropWhile Char.isWhitespace) with
              | none => none
              | some (q, r3) =>
                let mins' := if key = "minutes".toList then some (JsNum.val q) else mins
                let secs' := if key = "seconds".toList then some (JsNum.val q) else secs
                match r3.dropWhile Char.isWhitespace with
                | c3 :: r4 =>
                  if c3 = ',' then parseJsonMembers fuel r4 mins' secs'
                  else if c3 = rbrace then
                    if r4.dropWhile Char.isWhitespace = [] then
                      some (.obj mins' secs')
                    else none
                  else none
                | [] => none
            else none
          | [] => none
      else none
    | [] => none

/-- Model of `JSON.parse` on the inputs the dashboard feeds it: a flat
object of numbers, a bare number, or a bare string; `none` models a
thrown `SyntaxError`. -/
def jsonParse (s : Str) : Option DurVal :=
  let t := s.dropWhile Char.isWhitespace
  match t with
  | [] => none
  | c :: rest =>
    if c = lbrace then
      let r := rest.dropWhile Char.isWhitespace
      match r with
      | c2 :: r2 =>
        if c2 = rbrace ∧ r2.dropWhile Char.isWhitespace = [] then
          some (.obj none none)
        else parseJsonMembers (s.length + 1) rest none none
      | [] => none
    else if c = '"' then
      match parseJsonStr rest with
      | some (t2, r) =>
        if r.dropWhile Char.isWhitespace = [] then some (.str t2) else none
      | none => none
    else
      match parseJsonNum t with
      | some (q, r) =>
        if r.dropWhile Char.isWhitespace = [] then some (.num (JsNum.val q))
        else none
      | none => none

/-! ## Dashboard duration parser (`part_008`, `InsightsStatsDashboard`) -/

namespace Dash

/-- The `validDurations` mapper of the insights dashboard: JSON-parse
string-encoded durations, destructure `{seconds, minutes = 0}`, reject
non-numeric or negative fields, return `minutes * 60 + seconds`; `none`
models the `null` of rejected records. -/
def parseDuration (v : DurVal) : Option JsNum :=
  if jsTruthyDur v = false then none
  else
    let parsed? : Option DurVal :=
      match v with
      | .str s => jsonParse s
      | _ => some v
    match parsed? with
    | none => none
    | some parsed =>
      let seconds? : Option JsNum :=
        match parsed with
        | .obj _ s => s
        | _ => none
      let minutes : JsNum :=
        (match parsed with
          | .obj m _ => m
          | _ => none).getD (jn 0)
      match seconds? with
      | none => none
      | some s =>
        if jlt s (jn 0) then none
        else if jlt minutes (jn 0) then none
        else some (jadd (jmul minutes (jn 60)) s)

end Dash

/-! ## `V1`: the chat route of `part_003` — stride sampling, rate
limiting, request queue -/

namespace V1

/-- The loop of `sampleData` (`part_003` lines 27–41): visit indices
`0, step, 2·step, …` below `n`, pushing `records[i]` while fewer than
`maxSamples` elements are collected.  The fuel argument keeps the
recursion structural; fuel `n` is enough for every reachable call (the
step is positive there), and when `maxSamples = 0` the JavaScript loop
also collects nothing, which the fuel-exhausted base case reproduces. -/
def strideGo [Inhabited α] (records : List α) (step m n : Nat) :
    Nat → Nat → List α → List α
  | 0, _, acc => acc
  | fuel + 1, i, acc =>
    if i < n then
      strideGo records step m n fuel (i + step)
        (if acc.length < m then acc ++ [records.getD i default] else acc)
    else acc

/-- `sampleData` of `part_003`: identity below the cap, otherwise
fixed-stride systematic sampling with `step = Math.floor(n / maxSamples)`. -/
def sampleData [Inhabited α] (records : List α) (maxSamples : Nat) : List α :=
  if records.length ≤ maxSamples then records
  else
    let step := records.length / maxSamples
    strideGo records step maxSamples records.length records.length 0 []

/-- One `rateLimitMap` entry: request count in the current window and the
window reset timestamp (milliseconds). -/
structure RateEntry where
  count : Nat
  resetTime : Nat
deriving DecidableEq

/-- `checkRateLimit` (`part_003` lines 272–301) restricted to one client:
takes the client's current map entry, its queue length and `Date.now()`;
returns `(allowed, shouldQueue)` and the updated entry.
`windowMs = 60000`, `maxRequests = 15`, `queueLimit = 5`. -/
def checkRateLimit (entry : Option RateEntry) (queueLen : Nat) (now : Nat) :
    (Bool × Bool) × Option RateEntry :=
  match entry with
  | none => ((true, false), some ⟨1, now + 60000⟩)
  | some current =>
    if current.resetTime < now then ((true, false), some ⟨1, now + 60000⟩)
    else if 15 ≤ current.count then
      if queueLen < 5 then ((false, true), some current)
      else ((false, false), some current)
    else ((true, false), some ⟨current.count + 1, current.resetTime⟩)

/-- Per-client governor state: the `rateLimitMap` entry and the
`requestQueue` list (queued requests are identified by their arrival
timestamp). -/
structure GovState where
  entry : Option RateEntry
  queue : List Nat
deriving DecidableEq

/-- How the `POST` handler disposes of one request. -/
inductive Outcome where
  | admitted : Outcome
  | enqueued : Outcome
  | rejected429 : Outcome
deriving DecidableEq

/-- The admission logic of `POST` (`part_003` lines 339–376): consult
`checkRateLimit`; admit, enqueue (when `shouldQueue`), or answer 429. -/
def postStep (st : GovState) (now : Nat) : GovState × Outcome :=
  let r := checkRateLimit st.entry st.queue.length now
  if r.1.1 then (⟨r.2, st.queue⟩, .admitted)
  else if r.1.2 then (⟨r.2, st.queue ++ [now]⟩, .enqueued)
  else (⟨r.2, st.queue⟩, .rejected429)

/-- Run a sequence of requests (by arrival time) through the admission
logic, collecting the outcomes. -/
def runGov (st : GovState) : List Nat → GovState × List Outcome
  | [] => (st, [])
  | t :: ts =>
    let p := postStep st t
    let rest := runGov p.1 ts
    (rest.1, p.2 :: rest.2)

/-- One drain step of `processQueue` (`part_003` lines 132–150): read the
client's queue, return unchanged if empty, otherwise shift the first
entry, store the shortened queue, and hand the shifted request to
`processLargeRequest` (the returned `Option`).  The `rateLimitMap` is
never consulted or written. -/
def processQueueStep (st : GovState) : GovState × Option Nat :=
  match st.queue with
  | [] => (st, none)
  | r :: rest => (⟨st.entry, rest⟩, some r)

end V1

/-! ## `V2`: the chat route of `part_002` — random sampling,
`prepareAccurateData` / `prepareSmartData` -/

namespace V2

/-- The `while (sampleIndices.size < maxSamples)` loop of `sampleData`
(`part_002` lines 21–32): consume a stream of random draws, keeping first
occurrences, until `m` distinct indices are collected.  `Array.from` of a
`Set` returns insertion order, hence the accumulator list.  (When the
stream is exhausted before `m` distinct draws appear the JavaScript loop
would keep spinning; the model returns what was collected.) -/
def collectIndices (m : Nat) : List Nat → List Nat → List Nat
  | [], acc => acc
  | d :: ds, acc =>
    if m ≤ acc.length then acc
    else if d ∈ acc then collectIndices m ds acc
    else collectIndices m ds (acc ++ [d])

/-- `sampleData` of `part_002`: identity below the cap, otherwise a random
draw without replacement.  `Math.random()` is modelled by the explicit
stream `draws` of drawn indices. -/
def sampleData [Inhabited α] (records : List α) (maxSamples : Nat)
    (draws : List Nat) : List α :=
  if records.length ≤ maxSamples then records
  else (collectIndices maxSamples draws []).map fun i => records.getD i default

/-- `extractSentiment` local to `prepareSmartData` (`part_002` lines
100–108): no object branch, unlike the `part_005` variant. -/
def extractSentiment (v : SentVal) : Str :=
  if jsTruthySent v = false then unknownStr
  else
    match v with
    | .arr (e :: _) => jsOrElse e.sentiment unknownStr
    | .str s => s
    | _ => unknownStr

/-- `extractDuration` (`part_002` lines 110–118): numbers pass through,
objects with both fields sum `minutes * 60 + seconds`, everything else
(including JSON strings) becomes `0`. -/
def extractDuration (v : DurVal) : JsNum :=
  if jsTruthyDur v = false then jn 0
  else
    match v with
    | .num x => x
    | .obj (some m) (some s) => jadd (jmul m (jn 60)) s
    | _ => jn 0

/-- `extractTime` (`part_002` lines 120–128), identical in behaviour to
`extractDuration`. -/
def extractTime (v : DurVal) : JsNum :=
  if jsTruthyDur v = false then jn 0
  else
    match v with
    | .num x => x
    | .obj (some m) (some s) => jadd (jmul m (jn 60)) s
    | _ => jn 0

/-- The `baseStats` block of `prepareSmartData`. -/
structure BaseStats where
  totalRecords : Nat
  analysedRecords : Nat
  samplingRatio : JsNum
  dateRange : Option (Option Str × Option Str)
deriving DecidableEq

/-- Per-agent accumulator of the `agent_performance` branch. -/
structure AgentAcc where
  totalCalls : Nat
  totalDuration : JsNum
  totalHoldTime : JsNum
  dispositions : List (Str × Nat)
  sentiments : List (Str × Nat)
deriving DecidableEq

def initAgentAcc : AgentAcc := ⟨0, jn 0, jn 0, [], []⟩

/-- The `overview` block of the `summary` branch. -/
structure Overview where
  totalCalls : Nat
  analysedCalls : Nat
  uniqueAgents : Nat
  uniqueQueues : Nat
  avgCallDuration : JsNum
  avgHoldTime : JsNum
  topDispositions : List (Str × Nat)
  sentimentDistribution : List (Str × Nat)
deriving DecidableEq

/-- A reduced record of the `default` branch's `sampleRecords`. -/
structure SimpleRec where
  id : Str
  agent_username : Option Str
  queue_name : Option Str
  call_duration : JsNum
  disposition_title : Option Str
  sentiment_analysis : Str
  primary_category : Option Str
deriving DecidableEq

structure QuickStats where
  totalRecords : Nat
  avgDuration : JsNum
  topDisposition : Str
deriving DecidableEq

/-- The result of `prepareSmartData`, one constructor per branch of its
`switch (queryType)`. -/
inductive SmartData where
  | agentPerf (agentMetrics : List (Str × AgentAcc)) (totalAgents : Nat)
      (base : BaseStats) : SmartData
  | summary (overview : Overview) (base : BaseStats) : SmartData
  | general (sampleRecords : List SimpleRec) (quickStats : QuickStats)
      (base : BaseStats) : SmartData
deriving DecidableEq

def sumDurations (records : List CallRecord) : JsNum :=
  records.foldl (fun s r => jadd s (extractDuration r.call_duration)) (jn 0)

def sumHoldTimes (records : List CallRecord) : JsNum :=
  records.foldl (fun s r => jadd s (extractTime r.total_hold_time)) (jn 0)

/-- `prepareSmartData` (`part_002` lines 84–234).  `maxRecords = 1000`;
above it the random `sampleData` runs, consuming the modelled
`Math.random()
` stream `draws`. -/
def prepareSmartData (records : List CallRecord) (queryType : Str)
    (draws : List Nat) : SmartData :=
  let workingRecords :=
    if 1000 < records.length then sampleData records 1000 draws else records
  let base : BaseStats :=
    { totalRecords := records.length
      analysedRecords := workingRecords.length
      samplingRatio := jdiv (jn workingRecords.length) (jn records.length)
      dateRange := dateRangeOf records }
  if queryType = "agent_performance".toList then
    let agentStats := workingRecords.foldl
      (fun acc record =>
        upsert (jsOrElse record.agent_username unknownStr)
          (fun a =>
            { totalCalls := a.totalCalls + 1
              totalDuration := jadd a.totalDuration (extractDuration record.call_duration)
              totalHoldTime := jadd a.totalHoldTime (extractTime record.total_hold_time)
              dispositions := bumpCount (jsOrElse record.disposition_title unknownStr) a.dispositions
              sentiments := bumpCount (extractSentiment record.sentiment_analysis) a.sentiments })
          initAgentAcc acc)
      []
    .agentPerf agentStats agentStats.length base
  else if queryType = "summary".toList then
    let dispositionCounts := countBy
      (fun r => jsOrElse r.disposition_title unknownStr) workingRecords
    let topDispositions := (sortDescBy (fun p => p.2) dispositionCounts).take 5
    .summary
      { totalCalls := records.length
        analysedCalls := workingRecords.length
        uniqueAgents :=
          ((((workingRecords.map fun r => r.agent_username).filterMap id).filter
            fun s => !(s = [])).dedup).length
        uniqueQueues :=
          ((((workingRecords.map fun r => r.queue_name).filterMap id).filter
            fun s => !(s = [])).dedup).length
        avgCallDuration := jdiv (sumDurations workingRecords) (jn workingRecords.length)
        avgHoldTime := jdiv (sumHoldTimes workingRecords) (jn workingRecords.length)
        topDispositions := topDispositions
        sentimentDistribution := countBy
          (fun r => extractSentiment r.sentiment_analysis) workingRecords }
      base
  else
    let sampleRecords := (workingRecords.take 10).map fun record =>
      ({ id := record.id
         agent_username := record.agent_username
         queue_name := record.queue_name
         call_duration := extractDuration record.call_duration
         disposition_title := record.disposition_title
         sentiment_analysis := extractSentiment record.sentiment_analysis
         primary_category := record.primary_category } : SimpleRec)
    let generalDispositionCounts := countBy
      (fun r => jsOrElse r.disposition_title unknownStr) workingRecords
    let topDisposition := jsOrElse
      ((sortDescBy (fun p => p.2) generalDispositionCounts).head?.map fun p => p.1)
      ("None".toList)
    .general sampleRecords
      { totalRecords := records.length
        avgDuration := jdiv (sumDurations workingRecords) (jn workingRecords.length)
        topDisposition := topDisposition }
      base

/-- One entry of `dispositionsWithPercentages`. -/
structure DispPct where
  title : Str
  count : Nat
  percentage : Str
deriving DecidableEq

/-- The disposition branch payload of `prepareAccurateData`. -/
structure DispositionData where
  totalRecords : Nat
  dispositions : List (Str × Nat)
  dispositionsWithPercentages : List DispPct
  dateRange : Option (Option Str × Option Str)
  analysisNote : Str
deriving DecidableEq

/-- The disposition branch of `prepareAccurateData` (`part_002` lines
35–77): count dispositions over **all** records, derive percentage
strings, sort by count descending. -/
def prepareDispositionData (records : List CallRecord) : DispositionData :=
  let dispositions := countBy
    (fun r => jsOrElse r.disposition_title unknownStr) records
  let total := records.length
  let dwp := dispositions.map fun p =>
    ({ title := p.1
       count := p.2
       percentage :=
         if 0 < total then
           formatFixed 2 (jmul (jdiv (jn p.2) (jn total)) (jn 100))
         else "0.00".toList } : DispPct)
  { totalRecords := total
    dispositions := dispositions
    dispositionsWithPercentages := sortDescBy (fun d => d.count) dwp
    dateRange := dateRangeOf records
    analysisNote :=
      "Complete analysis of all ".toList ++ natToStr total ++ " records".toList }

inductive PreparedData where
  | disposition (d : DispositionData) : PreparedData
  | smart (s : SmartData) : PreparedData
deriving DecidableEq

/-- `prepareAccurateData` (`part_002` lines 35–81): disposition queries
always aggregate the full record set; every other query type goes through
`prepareSmartData` (and hence possibly through sampling). -/
def prepareAccurateData (records : List CallRecord) (queryType : Str)
    (draws : List Nat) : PreparedData :=
  if queryType = "disposition".toList then
    .disposition (prepareDispositionData records)
  else .smart (prepareSmartData records queryType draws)

end V2

/-! ## `A`: the analysis route of `part_005` — metric aggregation,
relevance scoring, context assembly -/

namespace A

/-- `extractNumericValue` (`part_005` lines 94–109): numbers pass
through, objects with both `minutes` and `seconds` sum them, strings go
through `parseFloat` with NaN mapped to `0`, everything else is `0`. -/
def extractNumericValue (v : DurVal) : JsNum :=
  if jsTruthyDur v = false then jn 0
  else
    match v with
    | .num x => x
    | .obj (some m) (some s) => jadd (jmul m (jn 60)) s
    | .str s =>
      match parseFloat s with
      | none => jn 0
      | some q => JsNum.val q
    | _ => jn 0

/-- `extractSentiment` (`part_005` lines 111–121): first array entry,
plain string, or the `sentiment` field of an object; otherwise
`"Unknown"`. -/
def extractSentiment (v : SentVal) : Str :=
  if jsTruthySent v = false then unknownStr
  else
    match v with
    | .arr (e :: _) => jsOrElse e.sentiment unknownStr
    | .str s => s
    | .obj (some s) => if s = [] then unknownStr else s
    | _ => unknownStr

def transcriptIndicators : List Str :=
  (["transcript", "conversation", "said", "mentioned", "discussed",
    "customer", "agent said", "complaint", "issue", "problem",
    "training", "quality", "script", "tone", "language", "communication",
    "specific", "example", "instance", "case", "story", "experience",
    "what did", "how did", "why did", "escalation", "resolution"] :
    List String).map String.toList

def transcriptQueryTypes : List Str :=
  (["quality", "training", "examples", "specific_cases"] :
    List String).map String.toList

def statisticalIndicators : List Str :=
  (["average", "total", "count", "how many", "percentage", "rate",
    "volume", "duration only", "time only", "stats only"] :
    List String).map String.toList

/-- `shouldIncludeTranscripts` (`part_005` lines 126–154). -/
def shouldIncludeTranscripts (query queryType : Str) : Bool :=
  let queryLower := toLowerStr query
  let hasTranscriptIndicator :=
    transcriptIndicators.any fun ind => containsSubstr queryLower ind
  let isTranscriptQueryType := transcriptQueryTypes.any fun t => t = queryType
  let isPurelyStatistical :=
    (statisticalIndicators.any fun ind => containsSubstr queryLower ind)
      && !hasTranscriptIndicator
  (hasTranscriptIndicator || isTranscriptQueryType) && !isPurelyStatistical

/-- `scoreTranscriptRelevance` (`part_005` lines 157–201): weighted
keyword matches in transcript (3) and summary (2), plus fixed bonuses for
sentiment (10), disposition (8) and category (6) alignment, long calls on
quality/training queries (5), and negative sentiment on complaint/problem
queries (8). -/
def scoreTranscriptRelevance (record : CallRecord) (query : Str) : Nat :=
  let queryLower := toLowerStr query
  let transcript := toLowerStr (jsOrElse record.transcript_text [])
  let summary := toLowerStr (jsOrElse record.call_summary [])
  let queryWords := (splitWs queryLower).filter fun w => 2 < w.length
  let kwScore :=
    (queryWords.map fun w => countOcc w transcript * 3 + countOcc w summary * 2).sum
  let recordSentiment := toLowerStr (extractSentiment record.sentiment_analysis)
  let s1 := if containsSubstr queryLower recordSentiment then 10 else 0
  let disposition := toLowerStr (jsOrElse record.disposition_title [])
  let s2 := if containsSubstr queryLower disposition then 8 else 0
  let category := toLowerStr (jsOrElse record.primary_category [])
  let s3 := if containsSubstr queryLower category then 6 else 0
  let duration := extractNumericValue record.call_duration
  let s4 :=
    if (containsSubstr queryLower ("quality".toList)
        || containsSubstr queryLower ("training".toList))
        && jlt (jn 300) duration then 5 else 0
  let s5 :=
    if (containsSubstr queryLower ("complaint".toList)
        || containsSubstr queryLower ("problem".toList))
        && containsSubstr recordSentiment ("negative".toList) then 8 else 0
  kwScore + s1 + s2 + s3 + s4 + s5

/-- The four curated `importantPatterns` of `extractRelevantSegments`,
each `\b(w1|w2|…)\b/i` modelled as its list of alternative words. -/
def importantPatterns : List (List Str) :=
  ([["complain", "complaint", "issue", "problem", "upset", "angry", "frustrated"],
    ["great", "excellent", "amazing", "wonderful", "thank", "appreciate"],
    ["sorry", "apologize", "understand", "help", "resolve", "solution"],
    ["cancel", "refund", "escalate", "supervisor", "manager"]] :
    List (List String)).map fun g => g.map String.toList

def isSentenceSep (c : Char) : Bool := c = '.' || c = '!' || c = '?'

/-- `extractRelevantSegments` (`part_005` lines 204–255): split the
transcript into sentences, score each by keyword matches (5) and curated
pattern hits (3), expand with one neighbour sentence on each side, cap at
400 characters with an ellipsis, return the top `maxSegments` by score. -/
def extractRelevantSegments (transcript query : Str) (maxSegments : Nat) :
    List Str :=
  if transcript = [] ∨ trimStr transcript = [] then []
  else
    let queryWords := (splitWs (toLowerStr query)).filter fun w => 2 < w.length
    let sentences :=
      (splitPred isSentenceSep transcript).filter fun s => 10 < (trimStr s).length
    let scored := sentences.enum.map fun p =>
      let sentenceLower := toLowerStr p.2
      let wscore := (queryWords.map fun w => countOcc w sentenceLower * 5).sum
      let pscore := (importantPatterns.map fun pat =>
        if pat.any fun w => wordOccursCI w p.2 then 3 else 0).sum
      let segmentStart := p.1 - 1
      let segmentEnd := min (sentences.length - 1) (p.1 + 1)
      let seg := trimStr (List.intercalate (". ".toList)
        ((sentences.drop segmentStart).take (segmentEnd + 1 - segmentStart)))
      let seg2 := if 400 < seg.length then seg.take 400 ++ "...".toList else seg
      (seg2, wscore + pscore)
    (((sortDescBy (fun p => p.2) (scored.filter fun p => 0 < p.2))).take
      maxSegments).map fun p => p.1

/-- A selected transcript excerpt (`TranscriptContext["selectedTranscripts"]`
entry). -/
structure SelTranscript where
  id : Str
  agent : Str
  disposition : Str
  sentiment : Str
  transcript : Str
  summary : Str
  relevanceScore : Nat
deriving DecidableEq

/-- The inner `for (const segment of segments)` loop of
`selectRelevantTranscriptSegments`: take segments while the token budget
allows, at most `MAX_SEGMENTS_PER_CALL = 4` per call.  Returns the chosen
segments and the updated running token count. -/
def innerSegLoop (maxTokens : Int) : List Str → Int → List Str → List Str × Int
  | [], cur, acc => (acc, cur)
  | seg :: rest, cur, acc =>
    let segmentTokens : Int := ((seg.length + 3) / 4 : Nat)
    if maxTokens < cur + segmentTokens then (acc, cur)
    else
      let acc' := acc ++ [seg]
      if 4 ≤ acc'.length then (acc', cur + segmentTokens)
      else innerSegLoop maxTokens rest (cur + segmentTokens) acc'

/-- The outer `for (const {record, relevanceScore} of topRelevantCalls)`
loop of `selectRelevantTranscriptSegments`. -/
def selLoop (query : Str) (maxTokens : Int) :
    List (CallRecord × Nat) → Int → List SelTranscript → List SelTranscript
  | [], _, acc => acc
  | rp :: rest, cur, acc =>
    let segments := extractRelevantSegments (jsOrElse rp.1.transcript_text []) query 4
    if segments = [] then selLoop query maxTokens rest cur acc
    else
      let inner := innerSegLoop maxTokens segments cur []
      let acc' :=
        if inner.1 = [] then acc
        else acc ++
          [{ id := rp.1.id
             agent := jsOrElse rp.1.agent_username unknownStr
             disposition := jsOrElse rp.1.disposition_title unknownStr
             sentiment := extractSentiment rp.1.sentiment_analysis
             transcript := List.intercalate (" [...] ".toList) inner.1
             summary := jsOrElse rp.1.call_summary []
             relevanceScore := rp.2 }]
      if maxTokens ≤ inner.2 then acc' else selLoop query maxTokens rest inner.2 acc'

/-- `selectRelevantTranscriptSegments` (`part_005` lines 258–317): rank
records with nonempty transcripts by relevance, keep the top
`MAX_TRANSCRIPT_CALLS = 3`, then collect segments under the token
budget. -/
def selectRelevantTranscriptSegments (records : List CallRecord)
    (query : Str) (maxTokens : Int) : List SelTranscript :=
  let top := ((records.filter fun r =>
      jsTruthyOptStr r.transcript_text
        && !(trimStr (jsOrElse r.transcript_text []) = [])).map fun r =>
      (r, scoreTranscriptRelevance r query)).filter fun p => 0 < p.2
  selLoop query maxTokens ((sortDescBy (fun p => p.2) top).take 3) 0 []

/-- One `dispositionBreakdown` / `sentimentBreakdown` entry. -/
structure CountPct where
  count : Nat
  percentage : JsNum
deriving DecidableEq

/-- Per-agent accumulator of `preprocessCallData`. -/
structure AgentStats where
  totalCalls : Nat
  totalDuration : JsNum
  totalHoldTime : JsNum
  dispositions : List (Str × Nat)
  sentiments : List (Str × Nat)
deriving DecidableEq

def initAgentStats : AgentStats := ⟨0, jn 0, jn 0, [], []⟩

/-- Per-queue accumulator of `preprocessCallData`. -/
structure QueueStats where
  totalCalls : Nat
  totalDuration : JsNum
  totalWaitTime : JsNum
  dispositions : List (Str × Nat)
deriving DecidableEq

def initQueueStats : QueueStats := ⟨0, jn 0, jn 0, []⟩

structure AgentMetric where
  totalCalls : Nat
  avgDuration : JsNum
  avgHoldTime : JsNum
  topDispositions : List Str
  sentimentScore : JsNum
deriving DecidableEq

structure QueueMetric where
  totalCalls : Nat
  avgDuration : JsNum
  avgWaitTime : JsNum
  topDispositions : List Str
deriving DecidableEq

structure TimePatterns where
  hourlyDistribution : List (Nat × Nat)
  dailyTrends : List (Str × Nat)
deriving DecidableEq

structure PerformanceIndicators where
  callsOver15Min : Nat
  callsUnder2Min : Nat
  abandonmentRate : Nat
  firstCallResolution : Nat
deriving DecidableEq

/-- The `ProcessedMetrics` interface of `part_005`. -/
structure ProcessedMetrics where
  totalCalls : Nat
  avgCallDuration : JsNum
  avgHoldTime : JsNum
  dispositionBreakdown : List (Str × CountPct)
  sentimentBreakdown : List (Str × CountPct)
  agentMetrics : List (Str × AgentMetric)
  queueMetrics : List (Str × QueueMetric)
  timePatterns : TimePatterns
  performanceIndicators : PerformanceIndicators
deriving DecidableEq

/-- Accumulator of the single `records.forEach` pass of
`preprocessCallData`. -/
structure PreAcc where
  totalDuration : JsNum
  totalHoldTime : JsNum
  callsOver15Min : Nat
  callsUnder2Min : Nat
  dispositions : List (Str × Nat)
  sentiments : List (Str × Nat)
  agentStats : List (Str × AgentStats)
  queueStats : List (Str × QueueStats)
  hourlyDistribution : List (Nat × Nat)
  dailyTrends : List (Str × Nat)
deriving DecidableEq

def initPreAcc : PreAcc := ⟨jn 0, jn 0, 0, 0, [], [], [], [], [], []⟩

/-- Model of `new Date(ts).getHours()` for the ISO-8601 timestamps of the
store: the hour field read from the string (time-zone conversion is not
modelled; no claim depends on it). -/
def tsHour (ts : Str) : Nat := digitsToNat ((ts.drop 11).take 2 |>.filterMap digitVal)

/-- Model of `new Date(ts).toDateString()` as a per-day key: the date part
of the string (rendering differences do not matter, only key equality). -/
def tsDateKey (ts : Str) : Str := ts.take 10

/-- The body of the `records.forEach` pass of `preprocessCallData`
(`part_005` lines 333–390). -/
def preStep (acc : PreAcc) (record : CallRecord) : PreAcc :=
  let duration := extractNumericValue record.call_duration
  let holdTime := extractNumericValue record.total_hold_time
  let disposition := jsOrElse record.disposition_title unknownStr
  let sentiment := extractSentiment record.sentiment_analysis
  let agent := jsOrElse record.agent_username unknownStr
  let queue := jsOrElse record.queue_name unknownStr
  { totalDuration := jadd acc.totalDuration duration
    totalHoldTime := jadd acc.totalHoldTime holdTime
    callsOver15Min := acc.callsOver15Min + (if jlt (jn 900) duration then 1 else 0)
    callsUnder2Min := acc.callsUnder2Min + (if jlt duration (jn 120) then 1 else 0)
    dispositions := bumpCount disposition acc.dispositions
    sentiments := bumpCount sentiment acc.sentiments
    agentStats := upsert agent
      (fun a =>
        { totalCalls := a.totalCalls + 1
          totalDuration := jadd a.totalDuration duration
          totalHoldTime := jadd a.totalHoldTime holdTime
          dispositions := bumpCount disposition a.dispositions
          sentiments := bumpCount sentiment a.sentiments })
      initAgentStats acc.agentStats
    queueStats := upsert queue
      (fun q =>
        { totalCalls := q.totalCalls + 1
          totalDuration := jadd q.totalDuration duration
          totalWaitTime := jadd q.totalWaitTime holdTime
          dispositions := bumpCount disposition q.dispositions })
      initQueueStats acc.queueStats
    hourlyDistribution :=
      match record.initiation_timestamp with
      | some ts =>
        if ts = [] then acc.hourlyDistribution
        else bumpCount (tsHour ts) acc.hourlyDistribution
      | none => acc.hourlyDistribution
    dailyTrends :=
      match record.initiation_timestamp with
      | some ts =>
        if ts = [] then acc.dailyTrends
        else bumpCount (tsDateKey ts) acc.dailyTrends
      | none => acc.dailyTrends }

set_option maxHeartbeats 1000000 in
/-- `preprocessCallData` (`part_005` lines 319–475): one accumulation
pass, then the derivation pass computing averages, percentages, top
dispositions and sentiment scores. -/
def preprocessCallData (records : List CallRecord) : ProcessedMetrics :=
  let totalCalls := records.length
  let acc := records.foldl preStep initPreAcc
  let dispositionBreakdown := acc.dispositions.map fun p =>
    (p.1, ({ count := p.2
             percentage := jmul (jdiv (jn p.2) (jn totalCalls)) (jn 100) } : CountPct))
  let sentimentBreakdown := acc.sentiments.map fun p =>
    (p.1, ({ count := p.2
             percentage := jmul (jdiv (jn p.2) (jn totalCalls)) (jn 100) } : CountPct))
  let agentMetrics := acc.agentStats.map fun p =>
    let stats := p.2
    let topDispositions :=
      ((sortDescBy (fun d => d.2) stats.dispositions).take 3).map fun d => d.1
    let positiveCount := lookupCount stats.sentiments ("Positive".toList)
    let negativeCount := lookupCount stats.sentiments ("Negative".toList)
    let sentimentScore :=
      if 0 < stats.totalCalls then
        jmul (jdiv (jz ((positiveCount : Int) - (negativeCount : Int)))
          (jn stats.totalCalls)) (jn 100)
      else jn 0
    (p.1, ({ totalCalls := stats.totalCalls
             avgDuration :=
               if 0 < stats.totalCalls then
                 jdiv stats.totalDuration (jn stats.totalCalls)
               else jn 0
             avgHoldTime :=
               if 0 < stats.totalCalls then
                 jdiv stats.totalHoldTime (jn stats.totalCalls)
               else jn 0
             topDispositions := topDispositions
             sentimentScore := sentimentScore } : AgentMetric))
  let queueMetrics := acc.queueStats.map fun p =>
    let stats := p.2
    let topDispositions :=
      ((sortDescBy (fun d => d.2) stats.dispositions).take 3).map fun d => d.1
    (p.1, ({ totalCalls := stats.totalCalls
             avgDuration :=
               if 0 < stats.totalCalls then
                 jdiv stats.totalDuration (jn stats.totalCalls)
               else jn 0
             avgWaitTime :=
               if 0 < stats.totalCalls then
                 jdiv stats.totalWaitTime (jn stats.totalCalls)
               else jn 0
             topDispositions := topDispositions } : QueueMetric))
  { totalCalls := totalCalls
    avgCallDuration :=
      if 0 < totalCalls then jdiv acc.totalDuration (jn totalCalls) else jn 0
    avgHoldTime :=
      if 0 < totalCalls then jdiv acc.totalHoldTime (jn totalCalls) else jn 0
    dispositionBreakdown := dispositionBreakdown
    sentimentBreakdown := sentimentBreakdown
    agentMetrics := agentMetrics
    queueMetrics := queueMetrics
    timePatterns :=
      { hourlyDistribution := acc.hourlyDistribution
        dailyTrends := acc.dailyTrends }
    performanceIndicators :=
      { callsOver15Min := acc.callsOver15Min
        callsUnder2Min := acc.callsUnder2Min
        abandonmentRate := 0
        firstCallResolution := 0 } }

structure TranscriptStats where
  totalAvailable : Nat
  selectedCount : Nat
  avgLength : JsNum
deriving DecidableEq

structure TranscriptContext where
  includeTranscripts : Bool
  selectedTranscripts : List SelTranscript
  transcriptStats : TranscriptStats
deriving DecidableEq

structure ContextResult where
  context : Str
  transcriptContext : TranscriptContext
deriving DecidableEq

/-- The truncation notice appended by the final safety check of
`prepareContextForQuery`. -/
def truncNotice : Str :=
  "\n\n[Context truncated due to size limits - analysis based on available data]".toList

/-- Everything `prepareContextForQuery` (`part_005` lines 478–639) builds
before its final token check: the metrics header, the query-type-specific
block, and the transcript-excerpt section. -/
def assembleContext (queryType query : Str) (metrics : ProcessedMetrics)
    (rawRecords : List CallRecord) (maxTokens : Nat) :
    Str × TranscriptContext :=
  let c0 :=
    "## Call Center Analytics Summary\n".toList
    ++ "**Total Calls Analyzed:** ".toList ++ toLocale metrics.totalCalls
      ++ "\n".toList
    ++ "**Average Call Duration:** ".toList
      ++ jsNumToStr (jsRound (jdiv metrics.avgCallDuration (jn 60)))
      ++ " minutes ".toList
      ++ jsNumToStr (jsRound (jmod metrics.avgCallDuration (jn 60)))
      ++ " seconds\n".toList
    ++ "**Average Hold Time:** ".toList
      ++ jsNumToStr (jsRound (jdiv metrics.avgHoldTime (jn 60)))
      ++ " minutes ".toList
      ++ jsNumToStr (jsRound (jmod metrics.avgHoldTime (jn 60)))
      ++ " seconds\n\n".toList
  let includeTranscripts := shouldIncludeTranscripts query queryType
  let totalAvailable :=
    (rawRecords.filter fun r => jsTruthyOptStr r.transcript_text).length
  let selectedTranscripts :=
    if includeTranscripts then
      let currentContextTokens : Int := ((c0.length + 3) / 4 : Nat)
      let availableTranscriptTokens : Int :=
        min 8000 ((maxTokens : Int) - currentContextTokens - 5000)
      selectRelevantTranscriptSegments rawRecords query availableTranscriptTokens
    else []
  let transcriptStats : TranscriptStats :=
    { totalAvailable := totalAvailable
      selectedCount := selectedTranscripts.length
      avgLength :=
        if 0 < selectedTranscripts.length then
          jdiv (jn (selectedTranscripts.map fun t => t.transcript.length).sum)
            (jn selectedTranscripts.length)
        else jn 0 }
  let branch : Str :=
    if queryType = "disposition".toList then
      "## Disposition Analysis\n".toList ++
        ((sortDescBy (fun p => p.2.count) metrics.dispositionBreakdown).map
          fun p =>
            "**".toList ++ p.1 ++ ":** ".toList ++ natToStr p.2.count
              ++ " calls (".toList ++ formatFixed 1 p.2.percentage
              ++ "%)\n".toList).flatten
    else if queryType = "agent_performance".toList then
      "## Agent Performance Metrics\n".toList ++
        (((sortDescBy (fun p => p.2.totalCalls) metrics.agentMetrics).take 20).map
          fun p =>
            "**".toList ++ p.1 ++ ":**\n".toList
            ++ "- Calls: ".toList ++ natToStr p.2.totalCalls ++ "\n".toList
            ++ "- Avg Duration: ".toList
              ++ jsNumToStr (jsRound (jdiv p.2.avgDuration (jn 60)))
              ++ "m ".toList
              ++ jsNumToStr (jsRound (jmod p.2.avgDuration (jn 60)))
              ++ "s\n".toList
            ++ "- Sentiment Score: ".toList ++ formatFixed 1 p.2.sentimentScore
              ++ "\n".toList
            ++ "- Top Dispositions: ".toList
              ++ List.intercalate (", ".toList) p.2.topDispositions
              ++ "\n\n".toList).flatten
    else if queryType = "sentiment".toList then
      "## Sentiment Analysis\n".toList ++
        ((sortDescBy (fun p => p.2.count) metrics.sentimentBreakdown).map
          fun p =>
            "**".toList ++ p.1 ++ ":** ".toList ++ natToStr p.2.count
              ++ " calls (".toList ++ formatFixed 1 p.2.percentage
              ++ "%)\n".toList).flatten
    else if queryType = "queue_analysis".toList then
      "## Queue Performance\n".toList ++
        ((sortDescBy (fun p => p.2.totalCalls) metrics.queueMetrics).map
          fun p =>
            "**".toList ++ p.1 ++ ":**\n".toList
            ++ "- Calls: ".toList ++ natToStr p.2.totalCalls ++ "\n".toList
            ++ "- Avg Duration: ".toList
              ++ jsNumToStr (jsRound (jdiv p.2.avgDuration (jn 60)))
              ++ "m ".toList
              ++ jsNumToStr (jsRound (jmod p.2.avgDuration (jn 60)))
              ++ "s\n".toList
            ++ "- Avg Wait: ".toList
              ++ jsNumToStr (jsRound (jdiv p.2.avgWaitTime (jn 60)))
              ++ "m ".toList
              ++ jsNumToStr (jsRound (jmod p.2.avgWaitTime (jn 60)))
              ++ "s\n".toList
            ++ "- Top Dispositions: ".toList
              ++ List.intercalate (", ".toList) p.2.topDispositions
              ++ "\n\n".toList).flatten
    else if queryType = "timing".toList then
      "## Time Pattern Analysis\n".toList
      ++ "**Hourly Distribution (Top 10):**\n".toList ++
        (((sortDescBy (fun p => p.2)
            metrics.timePatterns.hourlyDistribution).take 10).map
          fun p =>
            "- ".toList ++ natToStr p.1 ++ ":00: ".toList ++ natToStr p.2
              ++ " calls\n".toList).flatten
    else
      "## Key Metrics Overview\n\n".toList
      ++ "### Top Dispositions\n".toList ++
        (((sortDescBy (fun p => p.2.count) metrics.dispositionBreakdown).take 10).map
          fun p =>
            "- ".toList ++ p.1 ++ ": ".toList ++ natToStr p.2.count
              ++ " (".toList ++ formatFixed 1 p.2.percentage
              ++ "%)\n".toList).flatten
      ++ "\n### Performance Indicators\n".toList
      ++ "- Calls over 15 minutes: ".toList
        ++ natToStr metrics.performanceIndicators.callsOver15Min ++ "\n".toList
      ++ "- Calls under 2 minutes: ".toList
        ++ natToStr metrics.performanceIndicators.callsUnder2Min ++ "\n".toList
      ++ "\n### Top Performing Agents (by call volume)\n".toList ++
        (((sortDescBy (fun p => p.2.totalCalls) metrics.agentMetrics).take 5).map
          fun p =>
            "- ".toList ++ p.1 ++ ": ".toList ++ natToStr p.2.totalCalls
              ++ " calls, sentiment score: ".toList
              ++ formatFixed 1 p.2.sentimentScore ++ "\n".toList).flatten
  let tsec : Str :=
    if includeTranscripts ∧ selectedTranscripts ≠ [] then
      "\n## Key Call Examples (Transcript Segments)\n".toList
      ++ "*Showing relevant segments from the ".toList
        ++ natToStr selectedTranscripts.length
        ++ " most pertinent calls out of ".toList ++ natToStr totalAvailable
        ++ " available*\n\n".toList
      ++ (selectedTranscripts.enum.map fun p =>
            "### Example Call ".toList ++ natToStr (p.1 + 1)
              ++ " (ID: ".toList ++ p.2.id ++ ")\n".toList
            ++ "**Agent:** ".toList ++ p.2.agent
              ++ " | **Disposition:** ".toList ++ p.2.disposition
              ++ " | **Sentiment:** ".toList ++ p.2.sentiment ++ "\n".toList
            ++ (if p.2.summary ≠ [] then
                  "**Call Summary:** ".toList ++ p.2.summary ++ "\n".toList
                else [])
            ++ "**Relevant Excerpts:** ".toList ++ p.2.transcript
              ++ "\n\n".toList
            ++ "---\n\n".toList).flatten
    else []
  (c0 ++ branch ++ tsec,
    { includeTranscripts := includeTranscripts
      selectedTranscripts := selectedTranscripts
      transcriptStats := transcriptStats })

/-- `prepareContextForQuery` (`part_005` lines 478–658): assemble the
context, then the final token check — if `context.length / 4` exceeds the
budget, truncate to `maxTokens * 4` characters and append the truncation
notice. -/
def prepareContextForQuery (queryType query : Str)
    (metrics : ProcessedMetrics) (rawRecords : List CallRecord)
    (maxTokens : Nat) : ContextResult :=
  let a := assembleContext queryType query metrics rawRecords maxTokens
  let estimatedTokens : Q := Q.div (Q.ofNat a.1.length) (Q.ofNat 4)
  let context :=
    if Q.ltB (Q.ofNat maxTokens) estimatedTokens then
      a.1.take (maxTokens * 4) ++ truncNotice
    else a.1
  { context := context, transcriptContext := a.2 }

end A

/-! ## General lemmas about the association-list helpers -/

def sumCounts (l : List (κ × Nat)) : Nat := (l.map fun p => p.2).sum

def keysOf (l : List (κ × β)) : List κ := l.map fun p => p.1

theorem foldl_inv {P : σ → Prop} (f : σ → α → σ) :
    ∀ (l : List α) (s : σ), P s → (∀ s x, x ∈ l → P s → P (f s x)) →
      P (l.foldl f s) := by
  intro l
  induction l with
  | nil => intro s hs _; simpa using hs
  | cons x xs ih =>
    intro s hs hstep
    simp only [List.foldl_cons]
    exact ih _ (hstep s x (by simp) hs)
      (fun s' y hy hs' => hstep s' y (by simp [hy]) hs')

theorem sumCounts_bumpCount [DecidableEq κ] (k : κ) :
    ∀ l : List (κ × Nat), sumCounts (bumpCount k l) = sumCounts l + 1 := by
  intro l
  induction l with
  | nil => simp [bumpCount, sumCounts]
  | cons e rest ih =>
    obtain ⟨k', c⟩ := e
    by_cases h : k = k'
    · simp [bumpCount, h, sumCounts]; omega
    · simp only [bumpCount, if_neg h]
      simp only [sumCounts, List.map_cons, List.sum_cons] at ih ⊢
      omega

theorem keysOf_bumpCount [DecidableEq κ] (k : κ) :
    ∀ l : List (κ × Nat),
      keysOf (bumpCount k l) = if k ∈ keysOf l then keysOf l else keysOf l ++ [k] := by
  intro l
  induction l with
  | nil => simp [bumpCount, keysOf]
  | cons e rest ih =>
    obtain ⟨k', c⟩ := e
    by_cases h : k = k'
    · simp [bumpCount, h, keysOf]
    · simp only [bumpCount, if_neg h, keysOf, List.map_cons]
      simp only [keysOf] at ih
      rw [ih]
      by_cases hm : k ∈ List.map (fun p => p.1) rest
      · simp [hm, Ne.symm, h]
      · have : ¬(k = k' ∨ k ∈ List.map (fun p => p.1) rest) := by
          intro hc; rcases hc with hc | hc
          · exact h hc
          · exact hm hc
        simp only [List.mem_cons, if_pos hm, if_neg hm, if_neg this,
          List.cons_append]

theorem nodup_keysOf_bumpCount [DecidableEq κ] (k : κ) (l : List (κ × Nat))
    (h : (keysOf l).Nodup) : (keysOf (bumpCount k l)).Nodup := by
  rw [keysOf_bumpCount]
  by_cases hm : k ∈ keysOf l
  · simpa [hm] using h
  · simpa [hm, List.nodup_append] using h

theorem sumCounts_countBy_aux [DecidableEq κ] (f : α → κ) :
    ∀ (l : List α) (acc : List (κ × Nat)),
      sumCounts (l.foldl (fun a x => bumpCount (f x) a) acc) =
        sumCounts acc + l.length := by
  intro l
  induction l with
  | nil => simp
  | cons x xs ih =>
    intro acc
    simp only [List.foldl_cons, List.length_cons]
    rw [ih, sumCounts_bumpCount]
    omega

/-- The total of a `countBy` aggregate is the length of the list. -/
theorem sumCounts_countBy [DecidableEq κ] (f : α → κ) (l : List α) :
    sumCounts (countBy f l) = l.length := by
  simpa [countBy, sumCounts] using sumCounts_countBy_aux f l []

/-- A `countBy` aggregate has exactly one entry per key. -/
theorem nodup_keysOf_countBy [DecidableEq κ] (f : α → κ) (l : List α) :
    (keysOf (countBy f l)).Nodup := by
  unfold countBy
  exact foldl_inv (P := fun a : List (κ × Nat) => (keysOf a).Nodup) _ l []
    (by simp [keysOf])
    (fun a x _ ha => nodup_keysOf_bumpCount (f x) a ha)

/-! ## Claim C1 — disposition aggregation is complete and unsampled -/

/-- C1: For every list of call records (and any state of the random
stream), `prepareAccurateData` on a disposition-type query aggregates the
entire record set — its result is `prepareDispositionData records`,
independent of the sampling stream — with exactly one count per
disposition label (keys are pairwise distinct), and the per-disposition
counts sum to the length of the input list exactly. -/
theorem C1_disposition_counts_exact (records : List CallRecord)
    (draws : List Nat) :
    V2.prepareAccurateData records ("disposition".toList) draws =
      .disposition (V2.prepareDispositionData records) ∧
    sumCounts (V2.prepareDispositionData records).dispositions =
      records.length ∧
    (keysOf (V2.prepareDispositionData records).dispositions).Nodup := by
  refine ⟨by simp [V2.prepareAccurateData], ?_, ?_⟩
  · show sumCounts (countBy _ records) = records.length
    exact sumCounts_countBy _ records
  · show (keysOf (countBy _ records)).Nodup
    exact nodup_keysOf_countBy _ records

/-! ## Claim C5 — sampling returns `min(n, maxSamples)` elements and is
the identity below the cap -/

theorem strideGo_full [Inhabited α] (records : List α) (step m n : Nat) :
    ∀ (fuel i : Nat) (acc : List α), m ≤ acc.length →
      V1.strideGo records step m n fuel i acc = acc := by
  intro fuel
  induction fuel with
  | zero => intro i acc _; simp [V1.strideGo]
  | succ f ih =>
    intro i acc h
    simp only [V1.strideGo]
    by_cases hin : i < n
    · rw [if_pos hin, if_neg (by omega)]
      exact ih _ acc h
    · rw [if_neg hin]

theorem strideGo_fill [Inhabited α] (records : List α) (step m n : Nat) :
    ∀ (fuel i : Nat) (acc : List α),
      acc.length < m → i + (m - 1 - acc.length) * step < n →
      m - acc.length ≤ fuel →
      (V1.strideGo records step m n fuel i acc).length = m := by
  intro fuel
  induction fuel with
  | zero => intro i acc h1 _ h3; omega
  | succ f ih =>
    intro i acc h1 h2 h3
    have hin : i < n := by
      have := Nat.le_add_right i ((m - 1 - acc.length) * step)
      omega
    simp only [V1.strideGo, if_pos hin, if_pos h1]
    by_cases hfull : m ≤ (acc ++ [records.getD i default]).length
    · rw [strideGo_full]
      · simp only [List.length_append, List.length_singleton]
        simp only [List.length_append, List.length_singleton] at hfull
        omega
      · exact hfull
    · apply ih
      · simpa using hfull
      · simp only [List.length_append, List.length_singleton]
        have ha : m - 1 - acc.length = (m - 1 - (acc.length + 1)) + 1 := by
          simp only [List.length_append, List.length_singleton] at hfull
          omega
        rw [ha, Nat.succ_mul] at h2
        omega
      · simp only [List.length_append, List.length_singleton]
        omega

theorem collectIndices_length (m : Nat) :
    ∀ (draws acc : List Nat), draws.Nodup → (∀ d ∈ draws, d ∉ acc) →
      acc.length ≤ m →
      (V2.collectIndices m draws acc).length = min m (acc.length + draws.length) := by
  intro draws
  induction draws with
  | nil => intro acc _ _ h; simp [V2.collectIndices]; omega
  | cons d ds ih =>
    intro acc hnd hdis hle
    simp only [V2.collectIndices]
    by_cases hfull : m ≤ acc.length
    · rw [if_pos hfull]
      simp only [List.length_cons]
      omega
    · rw [if_neg hfull, if_neg (hdis d (by simp))]
      rw [List.nodup_cons] at hnd
      rw [ih (acc ++ [d]) hnd.2]
      · simp only [List.length_append, List.length_singleton, List.length_cons,
          List.length_nil]
        omega
      · intro e he
        simp only [List.mem_append, List.mem_singleton]
        rintro (hc | hc)
        · exact hdis e (by simp [he]) hc
        · exact hnd.1 (hc ▸ he)
      · simp only [List.length_append, List.length_singleton]
        omega

/-- C5: For every record list and cap `maxSamples ≥ 1`, the stride
`sampleData` of `part_003` returns exactly `min(records.length,
maxSamples)` elements, and both it and the random `sampleData` of
`part_002` return the input unchanged (identity, original order) when
`records.length ≤ maxSamples`; the random variant also returns exactly
`min(records.length, maxSamples)` elements whenever the modelled
`Math.random()` stream supplies at least `maxSamples` distinct draws. -/
theorem C5_sample_min_and_identity {α : Type} [Inhabited α]
    (records : List α) (m : Nat) (draws : List Nat) (hm : 1 ≤ m) :
    (V1.sampleData records m).length = min records.length m ∧
    (records.length ≤ m → V1.sampleData records m = records) ∧
    (records.length ≤ m → V2.sampleData records m draws = records) ∧
    (draws.Nodup → m ≤ draws.length →
      (V2.sampleData records m draws).length = min records.length m) := by
  refine ⟨?_, ?_, ?_, ?_⟩
  · unfold V1.sampleData
    by_cases h : records.length ≤ m
    · rw [if_pos h]; omega
    · rw [if_neg h]
      have hmn : m < records.length := by omega
      have hstep : 1 ≤ records.length / m := by
        rw [Nat.one_le_div_iff (by omega)]; omega
      rw [strideGo_fill]
      · omega
      · simpa using hm
      · have h1 : records.length / m * m ≤ records.length :=
          Nat.div_mul_le_self records.length m
        have h3 : (m - 1) * (records.length / m) + (records.length / m) =
            m * (records.length / m) := by
          have hm1 : m - 1 + 1 = m := by omega
          calc (m - 1) * (records.length / m) + (records.length / m)
              = ((m - 1) + 1) * (records.length / m) := (Nat.succ_mul _ _).symm
            _ = m * (records.length / m) := by rw [hm1]
        have h4 : m * (records.length / m) = records.length / m * m :=
          Nat.mul_comm _ _
        simp only [List.length_nil, Nat.sub_zero, Nat.zero_add]
        omega
      · simp only [List.length_nil, Nat.sub_zero]
        omega
  · intro h; simp [V1.sampleData, h]
  · intro h; simp [V2.sampleData, h]
  · intro hnd hlen
    unfold V2.sampleData
    by_cases h : records.length ≤ m
    · rw [if_pos h]; omega
    · rw [if_neg h, List.length_map]
      rw [collectIndices_length m draws [] hnd (by simp) (by simp)]
      simp only [List.length_nil, Nat.zero_add]
      omega

/-- Closed instance of `C5_sample_min_and_identity` at `records = [10,
20, 30]`, `maxSamples = 2`, `draws = [0, 2, 1]`. -/
theorem C5_sample_min_and_identity_witness :
    (V1.sampleData [10, 20, 30] 2).length = min 3 2 ∧
    ([10, 20, 30].length ≤ 2 → V1.sampleData [10, 20, 30] 2 = [10, 20, 30]) ∧
    ([10, 20, 30].length ≤ 2 → V2.sampleData [10, 20, 30] 2 [0, 2, 1] = [10, 20, 30]) ∧
    ([0, 2, 1].Nodup → 2 ≤ [0, 2, 1].length →
      (V2.sampleData [10, 20, 30] 2 [0, 2, 1]).length = min 3 2) :=
  C5_sample_min_and_identity [10, 20, 30] 2 [0, 2, 1] (by decide)

/-! ## Claim C10 — the queue drain bypasses admission control and leaves
the rate-limit entry untouched -/

/-- C10: For every client state whose window count is at or above the
maximum (`count ≥ 15`) inside an unexpired window, `checkRateLimit` would
deny the request, yet one `processQueue` drain step still dequeues the
head request and hands it to `processLargeRequest` (the emitted value),
and it leaves the client's `rateLimitMap` entry — count and reset time —
unchanged: queued requests execute even while the window is saturated. -/
theorem C10_queue_drain_frame (c R now qlen : Nat) (q : List Nat)
    (hc : 15 ≤ c) (hw : now ≤ R) :
    (V1.checkRateLimit (some ⟨c, R⟩) qlen now).1.1 = false ∧
    (V1.processQueueStep ⟨some ⟨c, R⟩, q⟩).1.entry = some ⟨c, R⟩ ∧
    (V1.processQueueStep ⟨some ⟨c, R⟩, q⟩).2 = q.head? ∧
    (V1.processQueueStep ⟨some ⟨c, R⟩, q⟩).1.queue = q.tail := by
  refine ⟨?_, ?_, ?_, ?_⟩
  · have h1 : ¬ R < now := by omega
    by_cases h5 : qlen < 5 <;>
      simp [V1.checkRateLimit, h1, hc, h5]
  · cases q <;> simp [V1.processQueueStep]
  · cases q <;> simp [V1.processQueueStep]
  · cases q <;> simp [V1.processQueueStep]

/-- Closed instance of `C10_queue_drain_frame` at a saturated window
(`count = 15`) with one queued request. -/
theorem C10_queue_drain_frame_witness :
    (V1.checkRateLimit (some ⟨15, 60000⟩) 0 0).1.1 = false ∧
    (V1.processQueueStep ⟨some ⟨15, 60000⟩, [7]⟩).1.entry = some ⟨15, 60000⟩ ∧
    (V1.processQueueStep ⟨some ⟨15, 60000⟩, [7]⟩).2 = [7].head? ∧
    (V1.processQueueStep ⟨some ⟨15, 60000⟩, [7]⟩).1.queue = [7].tail :=
  C10_queue_drain_frame 15 60000 0 0 [7] (by decide) (by decide)

/-! ## Claim C6 — the sixteenth request in a window is never silently
admitted -/

theorem runGov_append (l1 l2 : List Nat) :
    ∀ st : V1.GovState,
      V1.runGov st (l1 ++ l2) =
        ((V1.runGov (V1.runGov st l1).1 l2).1,
          (V1.runGov st l1).2 ++ (V1.runGov (V1.runGov st l1).1 l2).2) := by
  induction l1 with
  | nil => intro st; simp [V1.runGov]
  | cons t ts ih =>
    intro st
    simp only [List.cons_append, V1.runGov, List.append_eq]
    rw [ih]

theorem postStep_admit (c R t : Nat) (q : List Nat)
    (hw : t ≤ R) (hc : c < 15) :
    V1.postStep ⟨some ⟨c, R⟩, q⟩ t = (⟨some ⟨c + 1, R⟩, q⟩, .admitted) := by
  have h1 : ¬ R < t := by omega
  have h2 : ¬ 15 ≤ c := by omega
  simp [V1.postStep, V1.checkRateLimit, h1, h2]

theorem runGov_admit (R : Nat) :
    ∀ (ts : List Nat) (c : Nat) (q : List Nat),
      (∀ t ∈ ts, t ≤ R) → c + ts.length ≤ 15 →
      V1.runGov ⟨some ⟨c, R⟩, q⟩ ts =
        (⟨some ⟨c + ts.length, R⟩, q⟩, List.replicate ts.length .admitted) := by
  intro ts
  induction ts with
  | nil => intro c q _ _; simp [V1.runGov]
  | cons t ts ih =>
    intro c q hb hcount
    simp only [List.length_cons] at hcount
    simp only [V1.runGov,
      postStep_admit c R t q (hb t (by simp)) (by omega)]
    rw [ih (c + 1) q (fun u hu => hb u (by simp [hu])) (by omega)]
    have hcc : c + 1 + ts.length = c + (ts.length + 1) := by omega
    simp [List.replicate_succ, hcc, List.length_cons]

theorem postStep_enqueue (c R t : Nat) (q : List Nat)
    (hw : t ≤ R) (hc : 15 ≤ c) (hq : q.length < 5) :
    V1.postStep ⟨some ⟨c, R⟩, q⟩ t = (⟨some ⟨c, R⟩, q ++ [t]⟩, .enqueued) := by
  have h1 : ¬ R < t := by omega
  simp [V1.postStep, V1.checkRateLimit, h1, hc, hq]

theorem runGov_queue (R c : Nat) (hc : 15 ≤ c) :
    ∀ (ts : List Nat) (q : List Nat),
      (∀ t ∈ ts, t ≤ R) → q.length + ts.length ≤ 5 →
      V1.runGov ⟨some ⟨c, R⟩, q⟩ ts =
        (⟨some ⟨c, R⟩, q ++ ts⟩, List.replicate ts.length .enqueued) := by
  intro ts
  induction ts with
  | nil => intro q _ _; simp [V1.runGov]
  | cons t ts ih =>
    intro q hb hcount
    simp only [List.length_cons] at hcount
    simp only [V1.runGov,
      postStep_enqueue c R t q (hb t (by simp)) hc (by omega)]
    rw [ih (q ++ [t]) (fun u hu => hb u (by simp [hu]))
      (by simp only [List.length_append, List.length_singleton]; omega)]
    simp [List.replicate_succ, List.append_assoc]

theorem postStep_reject (c R t : Nat) (q : List Nat)
    (hw : t ≤ R) (hc : 15 ≤ c) (hq : 5 ≤ q.length) :
    V1.postStep ⟨some ⟨c, R⟩, q⟩ t = (⟨some ⟨c, R⟩, q⟩, .rejected429) := by
  have h1 : ¬ R < t := by omega
  have h5 : ¬ q.length < 5 := by omega
  simp [V1.postStep, V1.checkRateLimit, h1, hc, h5]

theorem postStep_first (t : Nat) :
    V1.postStep ⟨none, []⟩ t = (⟨some ⟨1, t + 60000⟩, []⟩, .admitted) := by
  simp [V1.postStep, V1.checkRateLimit]

/-- C6: With `maxRequests = 15` per 60-second window and `queueLimit =
5`, a client issuing 21 requests within one window (request times all at
most `t1 + 60000`) gets requests 1–15 admitted, requests 16–20 enqueued
and request 21 rejected with the 429 retryable error; moreover, in any
state whose window count has reached 15 inside an unexpired window,
`checkRateLimit` returns `allowed = false` and `shouldQueue` exactly when
the client queue holds fewer than 5 entries, so the POST handler enqueues
the request when the queue has room and otherwise rejects it — it is
never silently admitted. -/
theorem C6_sixteenth_request_never_admitted
    (t1 t21 : Nat) (ts2 ts3 : List Nat)
    (h2len : ts2.length = 14) (h3len : ts3.length = 5)
    (hb2 : ∀ t ∈ ts2, t ≤ t1 + 60000) (hb3 : ∀ t ∈ ts3, t ≤ t1 + 60000)
    (hb21 : t21 ≤ t1 + 60000) :
    (V1.runGov ⟨none, []⟩ (t1 :: (ts2 ++ ts3 ++ [t21]))).2 =
      .admitted :: (List.replicate 14 .admitted ++
        (List.replicate 5 .enqueued ++ [.rejected429])) ∧
    (∀ (c R now : Nat) (qs : List Nat), 15 ≤ c → now ≤ R →
      (V1.checkRateLimit (some ⟨c, R⟩) qs.length now).1.1 = false ∧
      (V1.postStep ⟨some ⟨c, R⟩, qs⟩ now).2 =
        (if qs.length < 5 then .enqueued else .rejected429)) := by
  constructor
  · simp only [V1.runGov, postStep_first t1]
    rw [List.append_assoc, runGov_append,
      runGov_admit (t1 + 60000) ts2 1 [] hb2 (by omega),
      runGov_append,
      runGov_queue (t1 + 60000) (1 + ts2.length)
        (by omega) ts3 [] hb3 (by simp [h3len])]
    simp only [V1.runGov,
      postStep_reject (1 + ts2.length) (t1 + 60000) t21 ([] ++ ts3) hb21
        (by omega) (by simp [h3len])]
    simp [h2len, h3len]
  · intro c R now qs hc hw
    have h1 : ¬ R < now := by omega
    constructor
    · by_cases h5 : qs.length < 5 <;>
        simp [V1.checkRateLimit, h1, hc, h5]
    · by_cases h5 : qs.length < 5
      · simp [V1.postStep, V1.checkRateLimit, h1, hc, h5]
      · simp [V1.postStep, V1.checkRateLimit, h1, hc, h5]

/-- Closed instance of `C6_sixteenth_request_never_admitted`: 21 requests
at one-millisecond intervals. -/
theorem C6_sixteenth_request_never_admitted_witness :
    (V1.runGov ⟨none, []⟩
      (0 :: (List.replicate 14 1 ++ List.replicate 5 2 ++ [3]))).2 =
      .admitted :: (List.replicate 14 .admitted ++
        (List.replicate 5 .enqueued ++ [.rejected429])) ∧
    (∀ (c R now : Nat) (qs : List Nat), 15 ≤ c → now ≤ R →
      (V1.checkRateLimit (some ⟨c, R⟩) qs.length now).1.1 = false ∧
      (V1.postStep ⟨some ⟨c, R⟩, qs⟩ now).2 =
        (if qs.length < 5 then .enqueued else .rejected429)) :=
  C6_sixteenth_request_never_admitted 0 3 (List.replicate 14 1)
    (List.replicate 5 2) (by decide) (by decide)
    (by intro t ht; simp at ht; omega)
    (by intro t ht; simp at ht; omega) (by decide)

/-! ## Claim C3 — the `{minutes: 2, seconds: 30}` normalisation scenario -/

/-- C3 counterexample: the claim as stated is false for the duration
decoders of the API routes — `extractNumericValue` (`part_005`) applied
to the JSON string `'{"minutes":2,"seconds":30}'` runs `parseFloat`,
obtains NaN and normalises to `0`, not `150`; `extractDuration`
(`part_002`) has no string branch at all and also yields `0`. -/
theorem C3_json_string_counterexample :
    A.extractNumericValue
        (.str ("\x7b\"minutes\":2,\"seconds\":30\x7d".toList)) = jn 0 ∧
    V2.extractDuration
        (.str ("\x7b\"minutes\":2,\"seconds\":30\x7d".toList)) = jn 0 ∧
    jn 0 ≠ jn 150 := by
  refine ⟨by decide, by decide, by decide⟩

/-- C3 (amended): the object form `{minutes: 2, seconds: 30}` normalises
to `150` seconds in all three duration decoders, but the JSON-encoded
string form normalises to `150` only in the dashboard's `validDurations`
parser (`part_008`), which JSON-parses strings; the API routes'
`extractNumericValue` (`part_005`) and `extractDuration` (`part_002`)
normalise the JSON string to `0`. -/
theorem C3_duration_scenario_amended :
    A.extractNumericValue (.obj (some (jn 2)) (some (jn 30))) = jn 150 ∧
    V2.extractDuration (.obj (some (jn 2)) (some (jn 30))) = jn 150 ∧
    Dash.parseDuration (.obj (some (jn 2)) (some (jn 30))) = some (jn 150) ∧
    Dash.parseDuration
      (.str ("\x7b\"minutes\":2,\"seconds\":30\x7d".toList)) = some (jn 150) ∧
    A.extractNumericValue
      (.str ("\x7b\"minutes\":2,\"seconds\":30\x7d".toList)) = jn 0 ∧
    V2.extractDuration
      (.str ("\x7b\"minutes\":2,\"seconds\":30\x7d".toList)) = jn 0 := by
  refine ⟨by decide, by decide, by decide, by decide, by decide, by decide⟩

/-! ## Claim C4 — normalised durations are nonnegative and never NaN -/

/-- C4 counterexample: the duration decoder passes negative numbers
through unchanged (`extractNumericValue(-5) = -5 < 0`), and an object
whose `minutes` field is NaN decodes to NaN. -/
theorem C4_negative_and_nan_counterexample :
    A.extractNumericValue (.num (JsNum.val (Q.ofInt (-5)))) =
      JsNum.val (Q.ofInt (-5)) ∧
    ¬ (Q.ofInt (-5)).Nonneg ∧
    A.extractNumericValue (.obj (some .nan) (some (jn 3))) = .nan := by
  refine ⟨by decide, by decide, by decide⟩

/-- The inputs on which the amended C4 holds: duration-like values whose
numeric content is a non-NaN, nonnegative number — nonnegative plain
numbers (NaN itself is falsy and decodes to `0`), strings whose
`parseFloat` either fails or yields a nonnegative value, objects whose
present `minutes`/`seconds` fields are nonnegative rationals, and all
malformed shapes (null, objects with a missing field). -/
def durNonNegReal : DurVal → Bool
  | .num (.val q) => decide (0 ≤ q.num)
  | .num .nan => true
  | .num _ => false
  | .str s =>
    match parseFloat s with
    | none => true
    | some q => decide (0 ≤ q.num)
  | .obj (some (.val a)) (some (.val b)) =>
    decide (0 ≤ a.num) && decide (0 ≤ b.num)
  | .obj (some _) (some _) => false
  | _ => true

/-- C4 (amended): for every raw duration-like input whose numeric content
is nonnegative and non-NaN (`durNonNegReal`), both duration decoders
return a real (non-NaN, non-infinite) value that is ≥ 0; in particular
null, unparseable strings and malformed shapes normalise to `0`.  The
restriction is forced by `C4_negative_and_nan_counterexample`: negative
numbers pass through unchanged and NaN object fields produce NaN. -/
theorem C4_duration_nonneg_amended (v : DurVal)
    (h : durNonNegReal v = true) :
    ∃ q q2 : Q, A.extractNumericValue v = .val q ∧ q.Nonneg ∧
      V2.extractDuration v = .val q2 ∧ q2.Nonneg := by
  cases v with
  | null =>
    exact ⟨Q.ofNat 0, Q.ofNat 0, by decide, by decide, by decide, by decide⟩
  | num x =>
    cases x with
    | nan =>
      exact ⟨Q.ofNat 0, Q.ofNat 0, by decide, by decide, by decide, by decide⟩
    | inf => simp [durNonNegReal] at h
    | ninf => simp [durNonNegReal] at h
    | val q =>
      by_cases hz : q.num = 0
      · refine ⟨Q.ofNat 0, Q.ofNat 0, ?_, by decide, ?_, by decide⟩ <;>
          simp [A.extractNumericValue, V2.extractDuration, jsTruthyDur, hz, jn]
      · have hq : (0 : Int) ≤ q.num := by simpa [durNonNegReal] using h
        refine ⟨q, q, ?_, hq, ?_, hq⟩ <;>
          simp [A.extractNumericValue, V2.extractDuration, jsTruthyDur, hz]
  | str s =>
    by_cases hs : s = []
    · subst hs
      exact ⟨Q.ofNat 0, Q.ofNat 0, by decide, by decide, by decide, by decide⟩
    · have hd : V2.extractDuration (.str s) = .val (Q.ofNat 0) := by
        simp [V2.extractDuration, jsTruthyDur, hs, jn]
      cases hp : parseFloat s with
      | none =>
        refine ⟨Q.ofNat 0, Q.ofNat 0, ?_, by decide, hd, by decide⟩
        simp [A.extractNumericValue, jsTruthyDur, hs, hp, jn]
      | some q =>
        have hq : (0 : Int) ≤ q.num := by simpa [durNonNegReal, hp] using h
        refine ⟨q, Q.ofNat 0, ?_, hq, hd, by decide⟩
        simp [A.extractNumericValue, jsTruthyDur, hs, hp]
  | obj mf sf =>
    match mf, sf with
    | none, none =>
      exact ⟨Q.ofNat 0, Q.ofNat 0, by decide, by decide, by decide, by decide⟩
    | none, some b =>
      refine ⟨Q.ofNat 0, Q.ofNat 0, ?_, by decide, ?_, by decide⟩ <;>
        simp [A.extractNumericValue, V2.extractDuration, jsTruthyDur, jn]
    | some a, none =>
      refine ⟨Q.ofNat 0, Q.ofNat 0, ?_, by decide, ?_, by decide⟩ <;>
        simp [A.extractNumericValue, V2.extractDuration, jsTruthyDur, jn]
    | some (.val a), some (.val b) =>
      have hab : (0 : Int) ≤ a.num ∧ (0 : Int) ≤ b.num := by
        simpa [durNonNegReal] using h
      have hnn : ((a.mul (Q.ofNat 60)).add b).Nonneg := by
        show (0 : Int) ≤ ((a.mul (Q.ofNat 60)).add b).num
        simp only [Q.mul, Q.add, Q.ofNat]
        push_cast
        nlinarith [hab.1, hab.2, Int.natCast_nonneg b.den,
          Int.natCast_nonneg a.den]
      refine ⟨(a.mul (Q.ofNat 60)).add b, (a.mul (Q.ofNat 60)).add b,
        ?_, hnn, ?_, hnn⟩ <;>
        simp [A.extractNumericValue, V2.extractDuration, jsTruthyDur, jadd,
          jmul, jn]
    | some .nan, some b => simp [durNonNegReal] at h
    | some .inf, some b => simp [durNonNegReal] at h
    | some .ninf, some b => simp [durNonNegReal] at h
    | some (.val a), some .nan => simp [durNonNegReal] at h
    | some (.val a), some .inf => simp [durNonNegReal] at h
    | some (.val a), some .ninf => simp [durNonNegReal] at h

/-- Closed instance of `C4_duration_nonneg_amended` at the unparseable
string `"abc"`. -/
theorem C4_duration_nonneg_amended_witness :
    durNonNegReal (.str ("abc".toList)) = true ∧
    (∃ q q2 : Q,
      A.extractNumericValue (.str ("abc".toList)) = .val q ∧ q.Nonneg ∧
      V2.extractDuration (.str ("abc".toList)) = .val q2 ∧ q2.Nonneg) :=
  ⟨by decide, C4_duration_nonneg_amended _ (by decide)⟩

/-! ## Claim C7 — occurrence counting lemmas -/

/-- Fuel-free view of the occurrence scan. -/
def cnt (pat s : Str) : Nat := countOccGo pat s.length s

theorem countOccGo_nil (pat : Str) (f : Nat) : countOccGo pat f [] = 0 := by
  cases f <;> rfl

theorem countOccGo_fuel (pat : Str) :
    ∀ (f1 : Nat) (s : Str) (f2 : Nat), s.length ≤ f1 → s.length ≤ f2 →
      countOccGo pat f1 s = countOccGo pat f2 s := by
  intro f1
  induction f1 with
  | zero =>
    intro s f2 h1 _
    have hs : s = [] := by
      cases s with
      | nil => rfl
      | cons c rest => simp at h1
    subst hs
    rw [countOccGo_nil, countOccGo_nil]
  | succ g ih =>
    intro s f2 h1 h2
    cases s with
    | nil => rw [countOccGo_nil, countOccGo_nil]
    | cons c rest =>
      cases f2 with
      | zero => simp at h2
      | succ h =>
        simp only [countOccGo]
        simp only [List.length_cons] at h1 h2
        by_cases hp : pat.isPrefixOf (c :: rest)
        · rw [if_pos hp, if_pos hp,
            ih (rest.drop (pat.length - 1)) h
              (by simp only [List.length_drop]; omega)
              (by simp only [List.length_drop]; omega)]
        · rw [if_neg hp, if_neg hp, ih rest h (by omega) (by omega)]

theorem cnt_cons (pat : Str) (c : Char) (rest : Str) :
    cnt pat (c :: rest) =
      if pat.isPrefixOf (c :: rest) then
        1 + cnt pat (rest.drop (pat.length - 1))
      else cnt pat rest := by
  show countOccGo pat (rest.length + 1) (c :: rest) = _
  simp only [countOccGo]
  by_cases hp : pat.isPrefixOf (c :: rest)
  · rw [if_pos hp, if_pos hp,
      countOccGo_fuel pat rest.length (rest.drop (pat.length - 1))
        (rest.drop (pat.length - 1)).length
        (by simp only [List.length_drop]; omega) (by omega)]
    rfl
  · rw [if_neg hp, if_neg hp,
      countOccGo_fuel pat rest.length rest rest.length (by omega) (by omega)]
    rfl

theorem isPrefixOf_extend {u v w : Str} (h : u.isPrefixOf v) :
    u.isPrefixOf (v ++ w) := by
  rw [List.isPrefixOf_iff_prefix] at h ⊢
  exact h.trans (List.prefix_append v w)

theorem isPrefixOf_restrict {u v w : Str} (h : u.isPrefixOf (v ++ w))
    (hl : u.length ≤ v.length) : u.isPrefixOf v := by
  rw [List.isPrefixOf_iff_prefix] at h ⊢
  rw [List.prefix_iff_eq_take] at h ⊢
  rwa [List.take_append_of_le_length hl] at h

theorem isPrefixOf_length_le {u v : Str} (h : u.isPrefixOf v) :
    u.length ≤ v.length :=
  (List.isPrefixOf_iff_prefix.mp h).length_le

theorem cnt_eq_zero_of_short (pat : Str) :
    ∀ (n : Nat) (s : Str), s.length ≤ n → s.length < pat.length →
      cnt pat s = 0 := by
  intro n
  induction n with
  | zero =>
    intro s h1 _
    have hs : s = [] := by cases s with | nil => rfl | cons c r => simp at h1
    subst hs; rfl
  | succ g ih =>
    intro s h1 h2
    cases s with
    | nil => rfl
    | cons c rest =>
      rw [cnt_cons]
      have hp : ¬ pat.isPrefixOf (c :: rest) := by
        intro hcon
        have := isPrefixOf_length_le hcon
        omega
      rw [if_neg hp]
      simp only [List.length_cons] at h1 h2
      exact ih rest (by omega) (by omega)

/-- Appending any text never decreases the non-overlapping occurrence
count of a nonempty pattern. -/
theorem cnt_append_le (pat t : Str) (hpat : pat ≠ []) :
    ∀ (n : Nat) (s : Str), s.length ≤ n → cnt pat s ≤ cnt pat (s ++ t) := by
  intro n
  induction n with
  | zero =>
    intro s h1
    have hs : s = [] := by cases s with | nil => rfl | cons c r => simp at h1
    subst hs
    show cnt pat [] ≤ _
    have : cnt pat [] = 0 := rfl
    omega
  | succ g ih =>
    intro s h1
    cases s with
    | nil =>
      have : cnt pat [] = 0 := rfl
      simp only [List.nil_append]
      omega
    | cons c rest =>
      simp only [List.length_cons] at h1
      rw [List.cons_append, cnt_cons, cnt_cons]
      by_cases hp : pat.isPrefixOf (c :: rest)
      · have hp2 : pat.isPrefixOf (c :: (rest ++ t)) := by
          have := isPrefixOf_extend (w := t) hp
          simpa using this
        rw [if_pos hp, if_pos hp2]
        have hlen : pat.length - 1 ≤ rest.length := by
          have := isPrefixOf_length_le hp
          simp only [List.length_cons] at this
          omega
        rw [List.drop_append_of_le_length hlen]
        have := ih (rest.drop (pat.length - 1))
          (by simp only [List.length_drop]; omega)
        omega
      · by_cases hp2 : pat.isPrefixOf (c :: (rest ++ t))
        · rw [if_neg hp, if_pos hp2]
          have hlong : rest.length + 1 < pat.length := by
            by_contra hle
            apply hp
            have : pat.isPrefixOf ((c :: rest) ++ t) := by simpa using hp2
            exact isPrefixOf_restrict this (by simp only [List.length_cons]; omega)
          have hz : cnt pat rest = 0 :=
            cnt_eq_zero_of_short pat rest.length rest (by omega) (by omega)
          omega
        · rw [if_neg hp, if_neg hp2]
          exact ih rest (by omega)

/-- The pattern occurs at least once in itself. -/
theorem cnt_self_pos (pat : Str) (hpat : pat ≠ []) : 1 ≤ cnt pat pat := by
  obtain ⟨p0, ptail, hpeq⟩ := List.exists_cons_of_ne_nil hpat
  subst hpeq
  rw [cnt_cons, if_pos (List.isPrefixOf_iff_prefix.mpr (List.prefix_refl _))]
  omega

/-- Appending the pattern itself strictly increases its occurrence
count. -/
theorem cnt_append_self (pat : Str) (hpat : pat ≠ []) :
    ∀ (n : Nat) (s : Str), s.length ≤ n →
      cnt pat s + 1 ≤ cnt pat (s ++ pat) := by
  intro n
  induction n with
  | zero =>
    intro s h1
    have hs : s = [] := by cases s with | nil => rfl | cons c r => simp at h1
    subst hs
    simp only [List.nil_append]
    have hzero : cnt pat [] = 0 := rfl
    have := cnt_self_pos pat hpat
    omega
  | succ g ih =>
    intro s h1
    cases s with
    | nil =>
      simp only [List.nil_append]
      have hzero : cnt pat [] = 0 := rfl
      have := cnt_self_pos pat hpat
      omega
    | cons c rest =>
      simp only [List.length_cons] at h1
      rw [List.cons_append, cnt_cons, cnt_cons]
      by_cases hp : pat.isPrefixOf (c :: rest)
      · have hp2 : pat.isPrefixOf (c :: (rest ++ pat)) := by
          have := isPrefixOf_extend (w := pat) hp
          simpa using this
        rw [if_pos hp, if_pos hp2]
        have hlen : pat.length - 1 ≤ rest.length := by
          have := isPrefixOf_length_le hp
          simp only [List.length_cons] at this
          omega
        rw [List.drop_append_of_le_length hlen]
        have := ih (rest.drop (pat.length - 1))
          (by simp only [List.length_drop]; omega)
        omega
      · by_cases hp2 : pat.isPrefixOf (c :: (rest ++ pat))
        · rw [if_neg hp, if_pos hp2]
          have hlong : rest.length + 1 < pat.length := by
            by_contra hle
            apply hp
            have : pat.isPrefixOf ((c :: rest) ++ pat) := by simpa using hp2
            exact isPrefixOf_restrict this (by simp only [List.length_cons]; omega)
          have hz : cnt pat rest = 0 :=
            cnt_eq_zero_of_short pat rest.length rest (by omega) (by omega)
          omega
        · rw [if_neg hp, if_neg hp2]
          exact ih rest (by omega)

theorem countOcc_append_le (pat s t : Str) (hpat : pat ≠ []) :
    countOcc pat s ≤ countOcc pat (s ++ t) := by
  simp only [countOcc, if_neg hpat]
  exact cnt_append_le pat t hpat s.length s (le_refl _)

theorem countOcc_append_self (pat s : Str) (hpat : pat ≠ []) :
    countOcc pat s + 1 ≤ countOcc pat (s ++ pat) := by
  simp only [countOcc, if_neg hpat]
  exact cnt_append_self pat hpat s.length s (le_refl _)

theorem jsOrElse_some_nil (x : Str) : jsOrElse (some x) [] = x := by
  by_cases h : x = [] <;> simp [jsOrElse, h]

/-- C7: For every call record and query, appending one additional exact
occurrence of a query keyword (a query token of length > 2; `s` is any
text whose lowercase form is that keyword) to the record's transcript
strictly increases the relevance score returned by
`scoreTranscriptRelevance`, compared to the otherwise-identical record
without that occurrence. -/
theorem C7_relevance_strictly_monotone (r : CallRecord) (q w s : Str)
    (hw : w ∈ (splitWs (toLowerStr q)).filter fun u => 2 < u.length)
    (hs : toLowerStr s = w) :
    A.scoreTranscriptRelevance r q <
      A.scoreTranscriptRelevance
        { r with transcript_text := some (jsOrElse r.transcript_text [] ++ s) }
        q := by
  have hwmem : w ∈ splitWs (toLowerStr q) ∧ 2 < w.length := by
    simpa [List.mem_filter] using hw
  have hwne : w ≠ [] := by
    intro hcon
    rw [hcon] at hwmem
    simp at hwmem
  have htrans :
      toLowerStr (jsOrElse
          (some (jsOrElse r.transcript_text [] ++ s)) []) =
        toLowerStr (jsOrElse r.transcript_text []) ++ w := by
    rw [jsOrElse_some_nil]
    unfold toLowerStr
    rw [List.map_append]
    rw [show List.map Char.toLower s = w from hs]
  set T := toLowerStr (jsOrElse r.transcript_text []) with hT
  set S := toLowerStr (jsOrElse r.call_summary []) with hS
  set qws := (splitWs (toLowerStr q)).filter (fun u => 2 < u.length) with hqws
  have hqwne : ∀ u ∈ qws, u ≠ [] := by
    intro u hu hcon
    rw [hqws, List.mem_filter] at hu
    rw [hcon] at hu
    simp at hu
  have hsum :
      ((qws.map fun u => countOcc u T * 3 + countOcc u S * 2).sum <
        (qws.map fun u => countOcc u (T ++ w) * 3 + countOcc u S * 2).sum) := by
    apply List.sum_lt_sum
    · intro u hu
      have := countOcc_append_le u T w (hqwne u hu)
      omega
    · refine ⟨w, hw, ?_⟩
      have := countOcc_append_self w T hwne
      omega
  simp only [A.scoreTranscriptRelevance, htrans]
  simp only [← hT, ← hS, ← hqws]
  omega

/-- Closed instance of `C7_relevance_strictly_monotone`: keyword
`"billing"` appended to a transcript that already mentions it once. -/
theorem C7_relevance_strictly_monotone_witness :
    A.scoreTranscriptRelevance
        { id := "7".toList
          agent_username := none
          queue_name := none
          call_duration := .num (jn 100)
          disposition_title := none
          sentiment_analysis := .null
          primary_category := none
          initiation_timestamp := none
          total_hold_time := .null
          transcript_text := some ("the billing was wrong".toList)
          call_summary := none } ("billing question".toList) <
      A.scoreTranscriptRelevance
        { id := "7".toList
          agent_username := none
          queue_name := none
          call_duration := .num (jn 100)
          disposition_title := none
          sentiment_analysis := .null
          primary_category := none
          initiation_timestamp := none
          total_hold_time := .null
          transcript_text := some
            (jsOrElse (some ("the billing was wrong".toList)) [] ++
              "billing".toList)
          call_summary := none } ("billing question".toList) :=
  C7_relevance_strictly_monotone _ ("billing question".toList)
    ("billing".toList) ("billing".toList) (by decide) (by decide)

/-! ## Claim C2 — the token-budget truncation bound -/

theorem ltB_budget_iff (mt L : Nat) :
    Q.ltB (Q.ofNat mt) (Q.div (Q.ofNat L) (Q.ofNat 4)) = true ↔
      4 * mt < L := by
  unfold Q.div Q.ofNat
  rw [dif_pos (by norm_num)]
  simp only [Q.ltB, Int.toNat_natCast, decide_eq_true_eq]
  omega

set_option maxRecDepth 100000 in
/-- C2 counterexample: the claim as stated is false — after the final
truncation step the context's estimated token count can exceed
`maxTokens`, because the truncation notice is appended after cutting the
string to `maxTokens * 4` characters.  Concretely, assembling a
disposition context for an empty record set under a budget of 25 tokens
yields a context whose 4-characters-per-token estimate exceeds 25. -/
theorem C2_token_budget_counterexample :
    25 < estimateTokens
      (A.prepareContextForQuery ("disposition".toList) ("zz".toList)
        (A.preprocessCallData []) [] 25).context := by decide

/-- C2 (amended): for every query, metric summary, record list and token
budget, the context returned by `prepareContextForQuery` after its final
truncation step has an estimated token count (fixed 4-characters-per-token
rule) of at most `maxTokens` **plus the estimated token count of the
fixed truncation notice** (20 tokens); without the appended notice the
truncated text alone fits the budget exactly. -/
theorem C2_token_budget_amended (queryType query : Str)
    (metrics : A.ProcessedMetrics) (rawRecords : List CallRecord)
    (maxTokens : Nat) :
    estimateTokens
        (A.prepareContextForQuery queryType query metrics rawRecords
          maxTokens).context ≤
      maxTokens + estimateTokens A.truncNotice := by
  unfold A.prepareContextForQuery
  set raw := (A.assembleContext queryType query metrics rawRecords maxTokens).1
    with hraw
  by_cases h :
      Q.ltB (Q.ofNat maxTokens) (Q.div (Q.ofNat raw.length) (Q.ofNat 4)) = true
  · have hlen : 4 * maxTokens < raw.length := (ltB_budget_iff _ _).mp h
    simp only [h, if_true]
    show estimateTokens (raw.take (maxTokens * 4) ++ A.truncNotice) ≤ _
    simp only [estimateTokens, List.length_append, List.length_take]
    omega
  · have hlen : ¬ 4 * maxTokens < raw.length := fun hc =>
      h ((ltB_budget_iff _ _).mpr hc)
    simp only [h, if_false]
    show estimateTokens raw ≤ _
    simp only [estimateTokens]
    omega

/-! ## Claim C8 — guarded divisions and NaN/Infinity freedom of the
metric aggregator -/

/-- Projection on `prepareSmartData` results: the overview's
`avgCallDuration` of a summary result. -/
def V2.SmartData.summaryAvgCallDuration : V2.SmartData → Option JsNum
  | .summary ov _ => some ov.avgCallDuration
  | _ => none

/-- C8 counterexample: the claim as stated is false — `prepareSmartData`
(`part_002`, cited by the claim) divides `workingRecords.reduce(...) /
workingRecords.length` without a denominator guard, so on the empty
record list the summary overview's `avgCallDuration` is `0/0 = NaN`. -/
theorem C8_unguarded_division_counterexample :
    V2.SmartData.summaryAvgCallDuration
        (V2.prepareSmartData [] ("summary".toList) []) = some JsNum.nan := by
  decide

/-- A record whose duration-like fields decode to real (non-NaN,
non-infinite) numbers. -/
def recordDurationsReal (r : CallRecord) : Bool :=
  (A.extractNumericValue r.call_duration).isReal
    && (A.extractNumericValue r.total_hold_time).isReal

/-- All numeric aggregates derived by `preprocessCallData` are real:
no NaN and no Infinity anywhere in the summary. -/
def MetricsReal (M : A.ProcessedMetrics) : Prop :=
  M.avgCallDuration.isReal = true ∧ M.avgHoldTime.isReal = true ∧
  (∀ e ∈ M.dispositionBreakdown, e.2.percentage.isReal = true) ∧
  (∀ e ∈ M.sentimentBreakdown, e.2.percentage.isReal = true) ∧
  (∀ e ∈ M.agentMetrics, e.2.avgDuration.isReal = true ∧
    e.2.avgHoldTime.isReal = true ∧ e.2.sentimentScore.isReal = true) ∧
  (∀ e ∈ M.queueMetrics, e.2.avgDuration.isReal = true ∧
    e.2.avgWaitTime.isReal = true)

theorem jn_real (n : Nat) : (jn n).isReal = true := rfl

theorem jz_real (k : Int) : (jz k).isReal = true := rfl

theorem jadd_real {x y : JsNum} (hx : x.isReal = true) (hy : y.isReal = true) :
    (jadd x y).isReal = true := by
  cases x <;> cases y <;> simp_all [JsNum.isReal, jadd]

theorem jmul_real {x y : JsNum} (hx : x.isReal = true) (hy : y.isReal = true) :
    (jmul x y).isReal = true := by
  cases x <;> cases y <;> simp_all [JsNum.isReal, jmul]

theorem jdiv_real_nat {x : JsNum} (hx : x.isReal = true) (n : Nat)
    (hn : n ≠ 0) : (jdiv x (jn n)).isReal = true := by
  cases x with
  | val a =>
    have hz : (Q.ofNat n).isZero = false := by
      simp [Q.isZero, Q.ofNat]
      omega
    simp [jdiv, jn, hz, JsNum.isReal]
  | nan => simp [JsNum.isReal] at hx
  | inf => simp [JsNum.isReal] at hx
  | ninf => simp [JsNum.isReal] at hx

/-- The invariant carried through the accumulation pass of
`preprocessCallData`. -/
def accReal (acc : A.PreAcc) : Prop :=
  acc.totalDuration.isReal = true ∧ acc.totalHoldTime.isReal = true ∧
  (∀ e ∈ acc.agentStats, e.2.totalDuration.isReal = true ∧
    e.2.totalHoldTime.isReal = true) ∧
  (∀ e ∈ acc.queueStats, e.2.totalDuration.isReal = true ∧
    e.2.totalWaitTime.isReal = true)

theorem upsert_forall [DecidableEq κ] {P : β → Prop} (k : κ) (f : β → β)
    (init : β) (hf : ∀ v, P v → P (f v)) (hinit : P (f init)) :
    ∀ l : List (κ × β), (∀ e ∈ l, P e.2) →
      ∀ e ∈ upsert k f init l, P e.2 := by
  intro l
  induction l with
  | nil =>
    intro _ e he
    simp only [upsert, List.mem_singleton] at he
    subst he
    exact hinit
  | cons p rest ih =>
    intro hl e he
    obtain ⟨k', v⟩ := p
    by_cases hk : k = k'
    · simp only [upsert, if_pos hk, List.mem_cons] at he
      rcases he with he | he
      · subst he
        exact hf v (hl (k', v) (by simp))
      · exact hl e (by simp [he])
    · simp only [upsert, if_neg hk, List.mem_cons] at he
      rcases he with he | he
      · subst he
        exact hl (k', v) (by simp)
      · exact ih (fun e' he' => hl e' (by simp [he'])) e he

theorem preStep_preserves_accReal (acc : A.PreAcc) (r : CallRecord)
    (hr : recordDurationsReal r = true) (hacc : accReal acc) :
    accReal (A.preStep acc r) := by
  have hdur : (A.extractNumericValue r.call_duration).isReal = true := by
    simp only [recordDurationsReal, Bool.and_eq_true] at hr
    exact hr.1
  have hhold : (A.extractNumericValue r.total_hold_time).isReal = true := by
    simp only [recordDurationsReal, Bool.and_eq_true] at hr
    exact hr.2
  obtain ⟨h1, h2, h3, h4⟩ := hacc
  unfold accReal A.preStep
  refine ⟨jadd_real h1 hdur, jadd_real h2 hhold, ?_, ?_⟩
  · exact upsert_forall
      (P := fun v : A.AgentStats =>
        v.totalDuration.isReal = true ∧ v.totalHoldTime.isReal = true)
      _ _ _
      (fun v hv => ⟨jadd_real hv.1 hdur, jadd_real hv.2 hhold⟩)
      ⟨jadd_real (by decide) hdur, jadd_real (by decide) hhold⟩ _ h3
  · exact upsert_forall
      (P := fun v : A.QueueStats =>
        v.totalDuration.isReal = true ∧ v.totalWaitTime.isReal = true)
      _ _ _
      (fun v hv => ⟨jadd_real hv.1 hdur, jadd_real hv.2 hhold⟩)
      ⟨jadd_real (by decide) hdur, jadd_real (by decide) hhold⟩ _ h4

/-- C8 (amended): in `preprocessCallData` (`part_005`) every derived
average, percentage and sentiment score is guarded — either by an
explicit `totalCalls > 0` check or by a denominator that is provably
nonzero whenever the divided entry exists — so for every input record
list whose duration-like fields decode to real numbers (including the
empty list and sampled subsets) the resulting summary contains no NaN and
no Infinity.  The restriction to real duration fields and to
`preprocessCallData` is forced by `C4_negative_and_nan_counterexample`
and `C8_unguarded_division_counterexample`: NaN duration fields propagate
into the averages, and `prepareSmartData` (`part_002`) divides by
`workingRecords.length` unguarded, giving NaN on the empty list. -/
theorem C8_preprocess_no_nan_amended (records : List CallRecord)
    (h : ∀ r ∈ records, recordDurationsReal r = true) :
    MetricsReal (A.preprocessCallData records) := by
  have hacc : accReal (records.foldl A.preStep A.initPreAcc) := by
    apply foldl_inv A.preStep records A.initPreAcc
    · refine ⟨by decide, by decide, by simp [A.initPreAcc], by simp [A.initPreAcc]⟩
    · intro s x hx hs
      exact preStep_preserves_accReal s x (h x hx) hs
  obtain ⟨h1, h2, h3, h4⟩ := hacc
  by_cases hrec : records = []
  · subst hrec
    refine ⟨by decide, by decide, ?_, ?_, ?_, ?_⟩ <;>
      intro e he <;> simp [A.preprocessCallData, A.initPreAcc, A.preStep] at he
  · have hlen : records.length ≠ 0 := by
      cases records with
      | nil => exact absurd rfl hrec
      | cons a b => simp
    simp only [A.preprocessCallData, MetricsReal]
    refine ⟨?_, ?_, ?_, ?_, ?_, ?_⟩
    · rw [if_pos (by omega)]
      exact jdiv_real_nat h1 _ hlen
    · rw [if_pos (by omega)]
      exact jdiv_real_nat h2 _ hlen
    · intro e he
      simp only [List.mem_map] at he
      obtain ⟨p, _, hpe⟩ := he
      subst hpe
      exact jmul_real (jdiv_real_nat (jn_real p.2) _ hlen) (jn_real 100)
    · intro e he
      simp only [List.mem_map] at he
      obtain ⟨p, _, hpe⟩ := he
      subst hpe
      exact jmul_real (jdiv_real_nat (jn_real p.2) _ hlen) (jn_real 100)
    · intro e he
      simp only [List.mem_map] at he
      obtain ⟨p, hp, hpe⟩ := he
      subst hpe
      have hst := h3 p hp
      dsimp only
      refine ⟨?_, ?_, ?_⟩
      · by_cases hc : 0 < p.2.totalCalls
        · rw [if_pos hc]
          exact jdiv_real_nat hst.1 _ (by omega)
        · rw [if_neg hc]; exact jn_real 0
      · by_cases hc : 0 < p.2.totalCalls
        · rw [if_pos hc]
          exact jdiv_real_nat hst.2 _ (by omega)
        · rw [if_neg hc]; exact jn_real 0
      · by_cases hc : 0 < p.2.totalCalls
        · rw [if_pos hc]
          exact jmul_real (jdiv_real_nat (jz_real _) _ (by omega)) (jn_real 100)
        · rw [if_neg hc]; exact jn_real 0
    · intro e he
      simp only [List.mem_map] at he
      obtain ⟨p, hp, hpe⟩ := he
      subst hpe
      have hst := h4 p hp
      dsimp only
      constructor
      · by_cases hc : 0 < p.2.totalCalls
        · rw [if_pos hc]
          exact jdiv_real_nat hst.1 _ (by omega)
        · rw [if_neg hc]; exact jn_real 0
      · by_cases hc : 0 < p.2.totalCalls
        · rw [if_pos hc]
          exact jdiv_real_nat hst.2 _ (by omega)
        · rw [if_neg hc]; exact jn_real 0

/-- Closed instance of `C8_preprocess_no_nan_amended` on a one-record
list with numeric duration fields. -/
theorem C8_preprocess_no_nan_amended_witness :
    (∀ r ∈ [({ id := "w".toList
               agent_username := some ("alice".toList)
               queue_name := some ("q".toList)
               call_duration := .num (jn 240)
               disposition_title := some ("Resolved".toList)
               sentiment_analysis := .arr [⟨some ("Positive".toList)⟩]
               primary_category := none
               initiation_timestamp := none
               total_hold_time := .num (jn 12)
               transcript_text := none
               call_summary := none } : CallRecord)],
      recordDurationsReal r = true) ∧
    MetricsReal (A.preprocessCallData
      [{ id := "w".toList
         agent_username := some ("alice".toList)
         queue_name := some ("q".toList)
         call_duration := .num (jn 240)
         disposition_title := some ("Resolved".toList)
         sentiment_analysis := .arr [⟨some ("Positive".toList)⟩]
         primary_category := none
         initiation_timestamp := none
         total_hold_time := .num (jn 12)
         transcript_text := none
         call_summary := none }]) :=
  ⟨by decide, C8_preprocess_no_nan_amended _ (by decide)⟩

/-! ## Claim C9 — purity of the aggregation functions -/

/-- Projection on `prepareSmartData` results: the `sampleRecords` of a
general result. -/
def V2.SmartData.generalSampleRecords : V2.SmartData → Option (List V2.SimpleRec)
  | .general sr _ _ => some sr
  | _ => none

theorem collectIndices_all (m : Nat) :
    ∀ (draws acc : List Nat), draws.Nodup → (∀ d ∈ draws, d ∉ acc) →
      acc.length + draws.length ≤ m →
      V2.collectIndices m draws acc = acc ++ draws := by
  intro draws
  induction draws with
  | nil => intro acc _ _ _; simp [V2.collectIndices]
  | cons d ds ih =>
    intro acc hnd hdis hle
    simp only [List.length_cons] at hle
    simp only [V2.collectIndices]
    rw [if_neg (by omega), if_neg (hdis d (by simp))]
    rw [List.nodup_cons] at hnd
    rw [ih (acc ++ [d]) hnd.2]
    · simp
    · intro e he
      simp only [List.mem_append, List.mem_singleton]
      rintro (hc | hc)
      · exact hdis e (by simp [he]) hc
      · exact hnd.1 (hc ▸ he)
    · simp only [List.length_append, List.length_singleton]
      omega

theorem generalSampleRecords_prepareSmartData (records : List CallRecord)
    (draws : List Nat) :
    V2.SmartData.generalSampleRecords
        (V2.prepareSmartData records ("general".toList) draws) =
      some (((if 1000 < records.length then V2.sampleData records 1000 draws
              else records).take 10).map fun record =>
        ({ id := record.id
           agent_username := record.agent_username
           queue_name := record.queue_name
           call_duration := V2.extractDuration record.call_duration
           disposition_title := record.disposition_title
           sentiment_analysis := V2.extractSentiment record.sentiment_analysis
           primary_category := record.primary_category } : V2.SimpleRec)) := by
  unfold V2.prepareSmartData
  rw [if_neg (by decide), if_neg (by decide)]
  rfl

/-- A plain record used by the nondeterminism counterexample. -/
def recA : CallRecord :=
  ⟨"a".toList, none, none, .null, none, .null, none, none, .null, none, none⟩

/-- A second record, distinguishable from `recA` by its id. -/
def recB : CallRecord :=
  ⟨"b".toList, none, none, .null, none, .null, none, none, .null, none, none⟩

/-- 1001 records: one thousand copies of `recA` followed by `recB`;
large enough that `prepareSmartData` takes its sampling path. -/
def recsC9 : List CallRecord := List.replicate 1000 recA ++ [recB]

theorem recsC9_length : recsC9.length = 1001 := by
  unfold recsC9
  rw [List.length_append, List.length_replicate, List.length_singleton]

theorem recsC9_getD_lt (i : Nat) (hi : i < 1000) :
    recsC9.getD i default = recA := by
  unfold recsC9
  rw [List.getD_eq_getElem?_getD, List.getElem?_append,
    if_pos (by rw [List.length_replicate]; omega),
    List.getElem?_replicate, if_pos hi]
  rfl

theorem recsC9_getD_last : recsC9.getD 1000 default = recB := by
  unfold recsC9
  rw [List.getD_eq_getElem?_getD,
    List.getElem?_append_right (by rw [List.length_replicate])]
  rw [List.length_replicate]
  rfl

theorem recsC9_sample_range :
    V2.sampleData recsC9 1000 (List.range 1000) =
      List.replicate 1000 recA := by
  unfold V2.sampleData
  rw [if_neg (by rw [recsC9_length]; omega)]
  rw [collectIndices_all 1000 (List.range 1000) [] (List.nodup_range 1000)
    (by simp) (by simp)]
  rw [List.nil_append]
  rw [List.eq_replicate_iff]
  refine ⟨by simp, ?_⟩
  intro b hb
  simp only [List.mem_map, List.mem_range] at hb
  obtain ⟨i, hi, hbe⟩ := hb
  rw [← hbe]
  exact recsC9_getD_lt i hi

theorem recsC9_sample_shifted :
    V2.sampleData recsC9 1000 (1000 :: List.range 999) =
      recB :: List.replicate 999 recA := by
  unfold V2.sampleData
  rw [if_neg (by rw [recsC9_length]; omega)]
  rw [collectIndices_all 1000 (1000 :: List.range 999) []
    (by rw [List.nodup_cons]
        exact ⟨by simp [List.mem_range], List.nodup_range 999⟩)
    (by simp) (by simp)]
  rw [List.nil_append, List.map_cons, recsC9_getD_last]
  refine congrArg (List.cons recB) ?_
  rw [List.eq_replicate_iff]
  refine ⟨by simp, ?_⟩
  intro b hb
  simp only [List.mem_map, List.mem_range] at hb
  obtain ⟨i, hi, hbe⟩ := hb
  rw [← hbe]
  exact recsC9_getD_lt i (by omega)

/-- C9 counterexample: the claim as stated is false when the sampling
path is taken — `prepareSmartData` reads `Math.random()` (modelled by the
explicit draw stream), so two calls on the same 1001-record input with
different random draws return different outputs: the sampled
`sampleRecords` of the general branch differ. -/
theorem C9_random_sampling_counterexample :
    V2.prepareSmartData recsC9 ("general".toList) (List.range 1000) ≠
      V2.prepareSmartData recsC9 ("general".toList) (1000 :: List.range 999) := by
  intro h
  have h' := congrArg V2.SmartData.generalSampleRecords h
  rw [generalSampleRecords_prepareSmartData,
    generalSampleRecords_prepareSmartData] at h'
  have hbig : 1000 < recsC9.length := by rw [recsC9_length]; omega
  rw [if_pos hbig, if_pos hbig, recsC9_sample_range, recsC9_sample_shifted]
    at h'
  rw [List.take_replicate, List.take_succ_cons, List.take_replicate] at h'
  rw [List.map_replicate, List.map_cons, List.map_replicate] at h'
  have hmin1 : min 10 1000 = 10 := by omega
  have hmin2 : min 9 999 = 9 := by omega
  rw [hmin1, hmin2] at h'
  rw [show (10 : Nat) = 9 + 1 from rfl, List.replicate_succ] at h'
  simp only [Option.some.injEq, List.cons.injEq] at h'
  have hid := congrArg V2.SimpleRec.id h'.1
  simp [recA, recB] at hid

/-- C9 (amended): `preprocessCallData` is a pure function of the record
list (it never samples), and `prepareSmartData` called twice on the same
input produces identical output whenever the input has at most 1000
records, i.e. whenever the sampling path is not taken — its result is
then independent of the `Math.random()` stream.  On larger inputs the
sampling path consumes hidden random state and repeated calls may differ
(`C9_random_sampling_counterexample`). -/
theorem C9_aggregate_deterministic_amended (records : List CallRecord)
    (queryType : Str) (draws draws' : List Nat)
    (h : records.length ≤ 1000) :
    V2.prepareSmartData records queryType draws =
      V2.prepareSmartData records queryType draws' := by
  have hw : ∀ d : List Nat,
      (if 1000 < records.length then V2.sampleData records 1000 d
       else records) = records :=
    fun d => if_neg (by omega)
  simp only [V2.prepareSmartData, hw]

/-- Closed instance of `C9_aggregate_deterministic_amended`: the empty
record list under two different draw streams. -/
theorem C9_aggregate_deterministic_amended_witness :
    V2.prepareSmartData [] ("summary".toList) [0] =
      V2.prepareSmartData [] ("summary".toList) [1] :=
  C9_aggregate_deterministic_amended [] ("summary".toList) [0] [1] (by decide)
